import Mathlib

/-!
Verification of c23-cli-template: argument parser, layered configuration, dispatcher,
error messages, input reader, output writer and menu selection.

A shallow embedding of `src/cli/args.c`, `src/core/config.c`, `src/core/error.c`,
`src/main.c`, `src/io/input.c`, `src/io/output.c` and of `tui_show_menu`
(`src/tui/tui.c`, with the same text in `src/tui/ncurses_wrapper.c`).

Modelling conventions:
* A C string (`char *`, NUL terminated) is a `String`, whose bytes are its UTF-8
  encoding; a nullable `char *` is an `Option String`. `strcmp(a, b) == 0` is equality
  of strings. A buffer cut at a byte count holds a `c_path`, text or raw bytes.
* `argv` is the list of its `argc` entries, so `argc = argv.length`; `argv[0]` is the
  head of the list (`NULL` when the list is empty).
* `struct app_config` is a record; `command_args[0 .. command_arg_count)` is a list and
  `command_arg_count` is its length.
* The `config` pointer is never `NULL`, and `strdup` and `calloc` succeed.
* `exit(0)` is a result of its own, so that a call that ends the process is told apart
  from a call that returns.
* Text written by `printf` and `fprintf(stderr, ...)` is a `String`; the log macros
  write to the logging subsystem and are left out.
* The `while (1)` loop of the input reader is a step function run with fuel; a stream
  is the list of bytes it still holds together with its two indicators.
* The menu reads its keys from a list; its `do ... while` searches run with fuel, and
  the index `selected`, never negative between two statements, is a natural number.
-/

set_option autoImplicit false

namespace AppCli

/-! ## Error codes (`src/core/error.h`) -/

/-- The enumeration `app_error`. -/
inductive app_error where
  | APP_SUCCESS
  | APP_ERROR_INVALID_ARG
  | APP_ERROR_INVALID_COMMAND
  | APP_ERROR_CONFIG
  | APP_ERROR_CONFIG_PARSE
  | APP_ERROR_CONFIG_INVALID
  | APP_ERROR_MISSING_ARG
  | APP_ERROR_UNKNOWN_OPTION
  | APP_ERROR_MEMORY
  | APP_ERROR_IO
  | APP_ERROR_PERMISSION
  | APP_ERROR_INTERNAL
  | APP_ERROR_THREADING
  | APP_ERROR_RESOURCE
  | APP_ERROR_SIGNAL
  | APP_ERROR_NOT_FOUND
  | APP_ERROR_INVALID_DATA
  | APP_ERROR_PARSE_ERROR
  | APP_ERROR_VALIDATION
  | APP_ERROR_OVERFLOW
  | APP_ERROR_UNDERFLOW
  | APP_ERROR_OUT_OF_RANGE
  | APP_ERROR_FEATURE_BASE
  deriving DecidableEq, Repr

open app_error

/-- The numeric value of each enumerator. -/
def app_error.code : app_error → Nat
  | APP_SUCCESS => 0
  | APP_ERROR_INVALID_ARG => 1
  | APP_ERROR_INVALID_COMMAND => 2
  | APP_ERROR_CONFIG => 3
  | APP_ERROR_CONFIG_PARSE => 4
  | APP_ERROR_CONFIG_INVALID => 5
  | APP_ERROR_MISSING_ARG => 6
  | APP_ERROR_UNKNOWN_OPTION => 7
  | APP_ERROR_MEMORY => 10
  | APP_ERROR_IO => 11
  | APP_ERROR_PERMISSION => 12
  | APP_ERROR_INTERNAL => 13
  | APP_ERROR_THREADING => 14
  | APP_ERROR_RESOURCE => 15
  | APP_ERROR_SIGNAL => 16
  | APP_ERROR_NOT_FOUND => 17
  | APP_ERROR_INVALID_DATA => 20
  | APP_ERROR_PARSE_ERROR => 21
  | APP_ERROR_VALIDATION => 22
  | APP_ERROR_OVERFLOW => 23
  | APP_ERROR_UNDERFLOW => 24
  | APP_ERROR_OUT_OF_RANGE => 25
  | APP_ERROR_FEATURE_BASE => 30

/-! ## Configuration store (`src/core/config.c`) -/

/-- The constant `MAX_COMMAND_ARGS`. -/
def MAX_COMMAND_ARGS : Nat := 100

/-- The record `struct app_config`. -/
structure app_config where
  program_name : Option String
  command : Option String
  command_args : List String
  config_file : Option String
  quiet : Bool
  debug : Bool
  verbose : Bool
  json_output : Bool
  plain_output : Bool
  no_color : Bool
  deriving DecidableEq, Repr

/-- The configuration `app_config_create` stores on success: `calloc` zeroes every
field, then the defaults are written. -/
def app_config_create : app_config :=
  { program_name := none, command := none, command_args := [], config_file := none,
    quiet := false, debug := false, verbose := false, json_output := false,
    plain_output := false, no_color := false }

def app_config_set_debug (config : app_config) (debug : Bool) : app_config :=
  { config with debug := debug }

def app_config_set_quiet (config : app_config) (quiet : Bool) : app_config :=
  { config with quiet := quiet }

def app_config_set_verbose (config : app_config) (verbose : Bool) : app_config :=
  { config with verbose := verbose }

def app_config_set_json_output (config : app_config) (json : Bool) : app_config :=
  { config with json_output := json }

def app_config_set_plain_output (config : app_config) (plain : Bool) : app_config :=
  { config with plain_output := plain }

def app_config_set_no_color (config : app_config) (no_color : Bool) : app_config :=
  { config with no_color := no_color }

/-- Setter of the program name: a `NULL` name changes nothing. -/
def app_config_set_program_name (config : app_config) (name : Option String) : app_config :=
  match name with
  | some n => { config with program_name := some n }
  | none => config

/-- Setter of the command: a `NULL` command changes nothing. -/
def app_config_set_command (config : app_config) (command : Option String) : app_config :=
  match command with
  | some c => { config with command := some c }
  | none => config

/-- Appends one command argument while `command_arg_count < MAX_COMMAND_ARGS`;
otherwise (or for a `NULL` argument) changes nothing. -/
def app_config_add_command_arg (config : app_config) (arg : Option String) : app_config :=
  match arg with
  | some a =>
    if config.command_args.length < MAX_COMMAND_ARGS then
      { config with command_args := config.command_args ++ [a] }
    else config
  | none => config

/-- Setter of the configuration-file path: a `NULL` path changes nothing. -/
def app_config_set_config_file (config : app_config) (path : Option String) : app_config :=
  match path with
  | some p => { config with config_file := some p }
  | none => config

/-! ## Environment and files -/

/-- A path as the code holds it in a `char` buffer: the bytes of a text (its UTF-8
encoding), or bytes that are no text, which a truncation in the middle of a character
leaves behind. -/
inductive c_path where
  | text (s : String)
  | raw (bytes : List UInt8)
  deriving DecidableEq, Repr

/-- What the process can observe of its surroundings: `getenv`, `access(path, R_OK) == 0`,
`fopen(path, "r")` (the contents when it succeeds), whether `app_secure_malloc` succeeds
and whether `fread` delivers the whole file. `access_r` and `fopen_r` answer for the
paths that are text, `access_raw` and `fopen_raw` for the paths whose bytes are no
text. -/
structure app_world where
  getenv : String → Option String
  access_r : String → Bool
  fopen_r : String → Option String
  malloc_ok : Bool
  fread_ok : Bool
  access_raw : List UInt8 → Bool := fun _ => false
  fopen_raw : List UInt8 → Option String := fun _ => none

/-- The test `access(path, R_OK) == 0` on a path held in a buffer. -/
def app_world.access (w : app_world) : c_path → Bool
  | .text s => w.access_r s
  | .raw bytes => w.access_raw bytes

/-- The call `fopen(path, "r")` on a path held in a buffer. -/
def app_world.fopen (w : app_world) : c_path → Option String
  | .text s => w.fopen_r s
  | .raw bytes => w.fopen_raw bytes

/-- The constant `APP_NAME` (`src/core/types.h`). -/
def APP_NAME : String := "myapp"

/-- The constant `PATH_MAX` of `<limits.h>` (Linux). -/
def PATH_MAX : Nat := 4096

/-- The first `n` bytes of the UTF-8 encoding of a text: the characters that fit
whole, and the leading bytes of the next character when the cut falls inside it. -/
def cut_bytes : List Char → Nat → List Char × List UInt8
  | [], _ => ([], [])
  | c :: rest, n =>
    if c.utf8Size ≤ n then
      let r := cut_bytes rest (n - c.utf8Size)
      (c :: r.1, r.2)
    else ([], (String.utf8EncodeChar c).take n)

/-- What `snprintf(config_path, PATH_MAX, ...)` leaves in the buffer: the first
`PATH_MAX - 1` bytes of the formatted text, which are the text itself when it is no
longer than that, a shorter text when the cut falls between two characters, and bytes
that are no text when it falls inside a character. -/
def snprintf_path (formatted : String) : c_path :=
  let r := cut_bytes formatted.data (PATH_MAX - 1)
  if r.2.isEmpty then .text (String.mk r.1)
  else .raw ((r.1.map String.utf8EncodeChar).flatten ++ r.2)

/-- The function `find_config_file`: `$APP_CONFIG_PATH`, then
`$HOME/.config/<app>/config.json`, then `/etc/<app>/config.json`, the first readable. -/
def find_config_file (w : app_world) : Option c_path :=
  let home_probe : Option c_path :=
    match w.getenv "HOME" with
    | some home =>
      let config_path := snprintf_path (home ++ "/.config/" ++ APP_NAME ++ "/config.json")
      if w.access config_path then some config_path else none
    | none => none
  let etc_path := snprintf_path ("/etc/" ++ APP_NAME ++ "/config.json")
  let later : Option c_path :=
    match home_probe with
    | some p => some p
    | none => if w.access etc_path then some etc_path else none
  match w.getenv "APP_CONFIG_PATH" with
  | some config_env => if w.access_r config_env then some (.text config_env) else later
  | none => later

/-- The function `app_config_load_file`: the file is opened and read, its contents are
not parsed, and the configuration is returned as it was given. -/
def app_config_load_file (w : app_world) (config : app_config) (path : Option String) :
    app_error × app_config :=
  let config_path : Option c_path :=
    match path with
    | some p => some (.text p)
    | none => find_config_file w
  match config_path with
  | none => (APP_SUCCESS, config)
  | some p =>
    match w.fopen p with
    | none => ( APP_ERROR_IO, config)
    | some _content =>
      if !w.malloc_ok then (APP_ERROR_MEMORY, config)
      else if !w.fread_ok then ( APP_ERROR_IO, config)
      else (APP_SUCCESS, config)

/-- The function `app_config_load_env`. -/
def app_config_load_env (getenv : String → Option String) (config : app_config) :
    app_error × app_config :=
  let config :=
    match getenv "NO_COLOR" with
    | some _ => { config with no_color := true }
    | none => config
  let config :=
    match getenv "APP_LOG_LEVEL" with
    | some log_level => if log_level = "DEBUG" then { config with debug := true } else config
    | none => config
  (APP_SUCCESS, config)

/-! ## Argument parser (`src/cli/args.c`) -/

/-- The byte `s[0]` of a C string: the NUL terminator when the string is empty. -/
def first_char (s : String) : Char :=
  match s.data with
  | [] => Char.ofNat 0
  | c :: _ => c

/-- What was printed before `exit`. -/
inductive exit_banner where
  | verbose_usage
  | version_info
  deriving DecidableEq, Repr

/-- How a call of `app_parse_args` ends: the process exits, or the call returns an
error code and leaves the configuration in some state. -/
inductive parse_result where
  | exited (status : Nat) (banner : exit_banner)
  | returned (err : app_error) (config : app_config)
  deriving DecidableEq, Repr

/-- First loop: is some `argv[i]`, `1 <= i < argc`, equal to `-h` or `--help`? -/
def help_requested : List String → Bool
  | [] => false
  | a :: rest => if a = "-h" ∨ a = "--help" then true else help_requested rest

/-- Second loop: is some `argv[i]`, `1 <= i < argc`, equal to `--version`? -/
def version_requested : List String → Bool
  | [] => false
  | a :: rest => if a = "--version" then true else version_requested rest

/-- How the option loop ends: an early `return` with an error, or the end of the loop
with `command_index` (`none` for `-1`; otherwise `argv[command_index]` and the entries
`argv[command_index + 1 .. argc)`). -/
inductive scan_result where
  | failed (err : app_error) (config : app_config)
  | finished (config : app_config) (command : Option (String × List String))
  deriving DecidableEq, Repr

/-- Third loop, from index `i` on: the argument is the list `argv[i .. argc)`. -/
def scan_options : List String → app_config → scan_result
  | [], config => .finished config none
  | a :: rest, config =>
    if first_char a = '-' then
      if a = "-d" ∨ a = "--debug" then
        scan_options rest (app_config_set_debug config true)
      else if a = "-q" ∨ a = "--quiet" then
        scan_options rest (app_config_set_quiet config true)
      else if a = "-v" ∨ a = "--verbose" then
        scan_options rest (app_config_set_verbose config true)
      else if a = "--json" then
        scan_options rest (app_config_set_json_output config true)
      else if a = "--plain" then
        scan_options rest (app_config_set_plain_output config true)
      else if a = "--no-color" then
        scan_options rest (app_config_set_no_color config true)
      else if a = "-c" ∨ a = "--config" then
        match rest with
        | [] => .failed APP_ERROR_MISSING_ARG config
        | p :: rest2 => scan_options rest2 (app_config_set_config_file config (some p))
      else
        .failed APP_ERROR_UNKNOWN_OPTION config
    else
      .finished config (some (a, rest))

/-- Last loop: `app_config_add_command_arg` on each remaining argument in turn. -/
def add_command_args : List String → app_config → app_config
  | [], config => config
  | a :: rest, config => add_command_args rest (app_config_add_command_arg config (some a))

/-- The function `app_parse_args`. -/
def app_parse_args (argv : List String) (config : app_config) : parse_result :=
  let config := app_config_set_program_name config argv.head?
  if help_requested argv.tail then .exited 0 .verbose_usage
  else if version_requested argv.tail then .exited 0 .version_info
  else
    match scan_options argv.tail config with
    | .failed err config => .returned err config
    | .finished config none => .returned APP_SUCCESS config
    | .finished config (some (command, rest)) =>
      .returned APP_SUCCESS (add_command_args rest (app_config_set_command config (some command)))

/-! ## Error messages (`src/core/error.c`) -/

/-- The function `app_strerror`; the argument is the numeric value of the code, and
the last branch is the `default` of the `switch`. -/
def app_strerror (error_code : Int) : String :=
  if error_code = 0 then "Success"
  else if error_code = 1 then "Invalid argument"
  else if error_code = 2 then "Invalid or unknown command"
  else if error_code = 3 then "Configuration file error"
  else if error_code = 4 then "Configuration file parse error"
  else if error_code = 5 then "Configuration file has invalid values"
  else if error_code = 6 then "Missing required argument"
  else if error_code = 7 then "Unknown option"
  else if error_code = 10 then "Memory allocation error"
  else if error_code = 11 then "I/O error"
  else if error_code = 12 then "Permission denied"
  else if error_code = 13 then "Internal error"
  else if error_code = 14 then "Thread/mutex error"
  else if error_code = 15 then "Resource exhaustion"
  else if error_code = 16 then "Signal handling error"
  else if error_code = 17 then "File or resource not found"
  else if error_code = 20 then "Invalid data format"
  else if error_code = 21 then "Parse error"
  else if error_code = 22 then "Validation failed"
  else if error_code = 23 then "Numeric overflow"
  else if error_code = 24 then "Numeric underflow"
  else if error_code = 25 then "Value out of range"
  else "Unknown error"

/-- Every enumerator of `app_error`, in the order of the declaration. -/
def app_error.all : List app_error :=
  [APP_SUCCESS, APP_ERROR_INVALID_ARG, APP_ERROR_INVALID_COMMAND, APP_ERROR_CONFIG,
    APP_ERROR_CONFIG_PARSE, APP_ERROR_CONFIG_INVALID, APP_ERROR_MISSING_ARG,
    APP_ERROR_UNKNOWN_OPTION, APP_ERROR_MEMORY, APP_ERROR_IO, APP_ERROR_PERMISSION,
    APP_ERROR_INTERNAL, APP_ERROR_THREADING, APP_ERROR_RESOURCE, APP_ERROR_SIGNAL,
    APP_ERROR_NOT_FOUND, APP_ERROR_INVALID_DATA, APP_ERROR_PARSE_ERROR, APP_ERROR_VALIDATION,
    APP_ERROR_OVERFLOW, APP_ERROR_UNDERFLOW, APP_ERROR_OUT_OF_RANGE, APP_ERROR_FEATURE_BASE]

/-! ## Dispatcher and `main` (`src/main.c`) -/

/-- The constant `APP_VERSION` (`src/core/types.h`, the fallback value). -/
def APP_VERSION : String := "1.0.0"

/-- What the build and the terminal fix outside the modelled code: whether `ENABLE_TUI`
is defined, the text of `__DATE__ " " __TIME__`, and the code the `menu` branch returns
at the end of its terminal session. -/
structure app_build where
  enable_tui : Bool
  build_stamp : String
  menu_session : app_error

/-- The branches of `handle_command` that run a command. -/
inductive handler_id where
  | hello
  | echo
  | info
  | menu
  deriving DecidableEq, Repr

/-- What a call of `handle_command` did: the branch taken (`none` for the fall-through
at the end), the code returned, and the text written to standard output and to the
error stream. -/
structure command_outcome where
  handler : Option handler_id
  err : app_error
  out : String
  errout : String
  deriving DecidableEq, Repr

/-- The loop of the `echo` branch from index `i` on: each iteration prints `argv[i]`
followed by a space when `i < argc - 1` and by a newline otherwise. -/
def echo_print (argc : Nat) : Nat → List String → String
  | _, [] => ""
  | i, a :: rest => a ++ (if i < argc - 1 then " " else "\n") ++ echo_print argc (i + 1) rest

/-- The function `handle_command`; `args` are the entries `argv[0 .. argc)` it is given.
A `NULL` program name is printed by `%s` as `(null)`. -/
def handle_command (b : app_build) (config : app_config) (command : String)
    (args : List String) : command_outcome :=
  if command = "hello" then
    let name := match args with
      | a :: _ => a
      | [] => "World"
    { handler := some .hello, err := APP_SUCCESS, out := "Hello, " ++ name ++ "!\n",
      errout := "" }
  else if command = "echo" then
    { handler := some .echo, err := APP_SUCCESS, out := echo_print args.length 0 args,
      errout := "" }
  else if command = "info" then
    { handler := some .info, err := APP_SUCCESS,
      out := "Application: " ++ APP_NAME ++ "\n" ++ "Version: " ++ APP_VERSION ++ "\n" ++
        "Build: " ++ b.build_stamp ++ "\n",
      errout := "" }
  else if b.enable_tui = true ∧ command = "menu" then
    { handler := some .menu, err := b.menu_session, out := "", errout := "" }
  else
    { handler := none, err := APP_ERROR_INVALID_COMMAND, out := "",
      errout := "Unknown command: " ++ command ++ "\n" ++
        "Run \x27" ++ config.program_name.getD "(null)" ++
          " --help\x27 for available commands\n" }

/-- The `config_path` that `app_config_load_file` passes to `fopen`, if any. -/
def app_config_load_file_path (w : app_world) (path : Option String) : Option c_path :=
  match path with
  | some p => some (.text p)
  | none => find_config_file w

/-- How a call of `initialize_app` ends: `exit` after the concise help, `exit` inside
`app_parse_args`, or a return with the code and the configuration. -/
inductive init_result where
  | exited_help (status : Nat)
  | exited_parse (status : Nat) (banner : exit_banner)
  | returned (err : app_error) (config : app_config)
  deriving DecidableEq, Repr

/-- The function `initialize_app` (`calloc` succeeds; the results of the two loaders
are discarded by the `(void)` casts). -/
def initialize_app (w : app_world) (argv : List String) : init_result :=
  if argv.length = 1 then .exited_help 0
  else
    let config := app_config_create
    let config := (app_config_load_file w config none).2
    let config := (app_config_load_env w.getenv config).2
    match app_parse_args argv config with
    | .exited status banner => .exited_parse status banner
    | .returned err config => .returned err config

/-- The configuration file `initialize_app` tries to open: its only call of the
loader is `app_config_load_file(*config, NULL)`, made when `argc` is not 1. -/
def initialize_app_config_path (w : app_world) (argv : List String) : Option c_path :=
  if argv.length = 1 then none else app_config_load_file_path w none

/-- How a run of `main` ends, one constructor for each path: the two exits inside
`initialize_app`, an error returned by it, the concise help for an unset command, and
the call of `handle_command`; `status` is the exit status of the process. -/
inductive main_result where
  | exited_help (status : Nat)
  | exited_parse (status : Nat) (banner : exit_banner)
  | init_failed (status : Nat)
  | no_command (status : Nat)
  | dispatched (status : Nat) (outcome : command_outcome)
  deriving DecidableEq, Repr

/-- The exit status of a run. -/
def main_result.status : main_result → Nat
  | .exited_help s => s
  | .exited_parse s _ => s
  | .init_failed s => s
  | .no_command s => s
  | .dispatched s _ => s

/-- The function `main`. -/
def main (w : app_world) (b : app_build) (argv : List String) : main_result :=
  match initialize_app w argv with
  | .exited_help status => .exited_help status
  | .exited_parse status banner => .exited_parse status banner
  | .returned err config =>
    if err ≠ APP_SUCCESS then .init_failed err.code
    else
      match config.command with
      | none => .no_command APP_ERROR_INVALID_ARG.code
      | some command =>
        let outcome := handle_command b config command config.command_args
        .dispatched outcome.err.code outcome

/-! ## Input reader (`src/io/input.c`) -/

/-- The constant `INPUT_BUFFER_INITIAL_SIZE`. -/
def INPUT_BUFFER_INITIAL_SIZE : Nat := 128 * 1024

/-- The constant `INPUT_BUFFER_READ_CHUNK_SIZE`. -/
def INPUT_BUFFER_READ_CHUNK_SIZE : Nat := 8192

/-- The constant `INPUT_MAX_SIZE`. -/
def INPUT_MAX_SIZE : Nat := 512 * 1024

/-- What a failing path does to `errno`: two paths set it, the others leave it. -/
inductive input_errno where
  | unchanged
  | ENOMEM
  | E2BIG
  deriving DecidableEq, Repr

/-- A `FILE *` open for reading: the bytes not yet delivered, whether the stream ends
with a read error rather than with end-of-file, and the two indicators `feof` and
`ferror`. -/
structure input_stream where
  data : List UInt8
  broken : Bool
  eof : Bool
  err : Bool
  deriving DecidableEq, Repr

/-- The call `fread(ptr, 1, n, stream)`: the bytes stored and the stream afterwards.
A request for 0 bytes returns 0 and leaves the stream as it is; a request the stream
can satisfy delivers `n` bytes; otherwise what is left is delivered and the
end-of-file (or error) indicator is set. -/
def fread (stream : input_stream) (n : Nat) : List UInt8 × input_stream :=
  if n = 0 then ([], stream)
  else if n ≤ stream.data.length then
    (stream.data.take n, { stream with data := stream.data.drop n })
  else
    (stream.data, { stream with
      data := [], eof := stream.eof || !stream.broken, err := stream.err || stream.broken })

/-- The variables of the read loop: `capacity`, the bytes `buffer[0 .. total_size)`
(so `total_size` is the length of `buffer`) and the stream. -/
structure read_state where
  capacity : Nat
  buffer : List UInt8
  stream : input_stream
  deriving DecidableEq, Repr

/-- How one iteration of the read loop ends: the loop goes round again, it is left by
`break`, or the function returns `nullptr`. -/
inductive read_step where
  | next (s : read_state)
  | stop (s : read_state)
  | fail (errno : input_errno)
  deriving DecidableEq, Repr

/-- One iteration of the `while (1)` loop of `app_read_input_from_stdin`; `alloc_ok n`
tells whether an allocation of `n` bytes succeeds. In every state the loop reaches
`total_size < capacity`, so the subtractions do not wrap. -/
def read_iteration (alloc_ok : Nat → Bool) (s : read_state) : read_step :=
  let total_size := s.buffer.length
  if total_size ≥ INPUT_MAX_SIZE then .fail .E2BIG
  else
    let remaining := s.capacity - total_size - 1
    let grown : Option Nat :=
      if remaining < INPUT_BUFFER_READ_CHUNK_SIZE then
        let new_capacity :=
          if s.capacity * 2 > INPUT_MAX_SIZE then INPUT_MAX_SIZE else s.capacity * 2
        if alloc_ok new_capacity then some new_capacity else none
      else some s.capacity
    match grown with
    | none => .fail .ENOMEM
    | some capacity =>
      let remaining := capacity - total_size - 1
      let bytes_to_read :=
        if remaining < INPUT_BUFFER_READ_CHUNK_SIZE then remaining
        else INPUT_BUFFER_READ_CHUNK_SIZE
      let got := fread s.stream bytes_to_read
      if got.1.length = 0 then
        if got.2.eof then .stop { capacity := capacity, buffer := s.buffer, stream := got.2 }
        else if got.2.err then .fail .unchanged
        else .next { capacity := capacity, buffer := s.buffer ++ got.1, stream := got.2 }
      else .next { capacity := capacity, buffer := s.buffer ++ got.1, stream := got.2 }

/-- What `app_read_input_from_stdin` returns: the buffer (its bytes, which a NUL
follows), or `nullptr` with the effect on `errno`. -/
inductive read_result where
  | ok (text : List UInt8)
  | null (errno : input_errno)
  deriving DecidableEq, Repr

/-- The read loop run for at most `fuel` iterations: `none` when it is still running
after them. -/
def read_loop (alloc_ok : Nat → Bool) : Nat → read_state → Option read_result
  | 0, _ => none
  | fuel + 1, s =>
    match read_iteration alloc_ok s with
    | .next s2 => read_loop alloc_ok fuel s2
    | .stop s2 => some (.ok s2.buffer)
    | .fail errno => some (.null errno)

/-- The function `app_read_input_from_stdin` with its loop bounded by `fuel`;
`st_size` is `some n` when `fstat` succeeds on a regular file of size `n`. -/
def app_read_input_from_stdin (alloc_ok : Nat → Bool) (st_size : Option Nat)
    (stream : input_stream) (fuel : Nat) : Option read_result :=
  let capacity : Nat :=
    match st_size with
    | some size =>
      if size > 0 then (if size < INPUT_MAX_SIZE then size + 1 else INPUT_MAX_SIZE)
      else INPUT_BUFFER_INITIAL_SIZE
    | none => INPUT_BUFFER_INITIAL_SIZE
  if capacity = 0 ∨ capacity > INPUT_MAX_SIZE then some (.null .unchanged)
  else if alloc_ok capacity = false then some (.null .ENOMEM)
  else read_loop alloc_ok fuel { capacity := capacity, buffer := [], stream := stream }

/-- An error-free stream that holds the given bytes and has not been read yet. -/
def fresh_stream (data : List UInt8) : input_stream :=
  { data := data, broken := false, eof := false, err := false }

/-- Invariant of the read loop on a stream of `n` bytes that has not reported its end:
the bytes read and the bytes left add up to `n`, one byte of the buffer is kept free,
and the capacity is within the ceiling. -/
def read_inv (n : Nat) (s : read_state) : Prop :=
  s.buffer.length + s.stream.data.length = n ∧ s.buffer.length + 1 ≤ s.capacity ∧
  s.capacity ≤ INPUT_MAX_SIZE ∧ s.stream.eof = false ∧ s.stream.err = false

/-- A file as `app_read_input_from_file` sees it once `fopen` has succeeded: the size
`fstat` reports (`none` when `fstat` fails) and the stream to read from. -/
structure input_file where
  st_size : Option Nat
  stream : input_stream
  deriving DecidableEq, Repr

/-- The function `app_read_input_from_file`; `fopen_file name` is the file when
`fopen(name, "r")` succeeds. The paths that do not set `errno` themselves leave it as
the failing library call set it. -/
def app_read_input_from_file (alloc_ok : Nat → Bool) (fopen_file : String → Option input_file)
    (filename : Option String) : read_result :=
  match filename with
  | none => .null .unchanged
  | some name =>
    match fopen_file name with
    | none => .null .unchanged
    | some file =>
      match file.st_size with
      | none => .null .unchanged
      | some st_size =>
        if st_size > INPUT_MAX_SIZE then .null .E2BIG
        else
          let file_size := st_size
          if alloc_ok (file_size + 1) = false then .null .ENOMEM
          else
            let got := fread file.stream file_size
            if got.1.length ≠ file_size then .null .unchanged
            else .ok got.1

/-- Invariant of the read loop on an error-free stream that held `data`: the bytes
read followed by the bytes left are `data`, one byte of the buffer is kept free, the
capacity is within the ceiling, and the end-of-file indicator is set only when nothing
is left. -/
def read_inv_data (data : List UInt8) (s : read_state) : Prop :=
  s.buffer ++ s.stream.data = data ∧ s.buffer.length + 1 ≤ s.capacity ∧
  s.capacity ≤ INPUT_MAX_SIZE ∧ s.stream.err = false ∧ s.stream.broken = false ∧
  (s.stream.eof = true → s.stream.data = [])

/-! ## Output writer (`src/io/output.c`) -/

/-- What a call wrote: the text sent to standard output and the text sent to the
error stream. -/
structure output_written where
  out : String
  errout : String
  deriving DecidableEq, Repr

/-- The function `app_output`; a `NULL` text writes nothing. -/
def app_output (text : Option String) (config : app_config) (is_error : Bool) :
    output_written :=
  match text with
  | none => { out := "", errout := "" }
  | some text =>
    if config.quiet = true ∧ is_error = false then { out := "", errout := "" }
    else
      let line : String :=
        if config.json_output = true then "\x7b\"message\":\"" ++ text ++ "\"\x7d\n"
        else text ++ "\n"
      if is_error = true then { out := "", errout := line }
      else { out := line, errout := "" }

/-! ## Menu selection (`src/tui/tui.c`, `src/tui/ncurses_wrapper.c`) -/

/-- The record `tui_menu_item_t`. -/
structure tui_menu_item where
  label : String
  description : Option String
  id : Int
  enabled : Bool
  deriving DecidableEq, Repr

/-- The key code `KEY_DOWN` of `<ncurses.h>`. -/
def KEY_DOWN : Int := 258

/-- The key code `KEY_UP` of `<ncurses.h>`. -/
def KEY_UP : Int := 259

/-- The key code `KEY_ENTER` of `<ncurses.h>`. -/
def KEY_ENTER : Int := 343

/-- The field `items[i].enabled`; false outside the array, where the code never
reads. -/
def enabled_at (items : List tui_menu_item) (i : Nat) : Bool :=
  match items[i]? with
  | some item => item.enabled
  | none => false

/-- The field `items[i].id`. -/
def id_at (items : List tui_menu_item) (i : Nat) : Int :=
  match items[i]? with
  | some item => item.id
  | none => 0

/-- The loop `while (selected < item_count && !items[selected].enabled) selected++`
followed by the test `selected >= item_count`: the argument is the list
`items[selected .. item_count)`, and `none` stands for the return of -1. -/
def first_enabled_from : List tui_menu_item → Nat → Option Nat
  | [], _ => none
  | item :: rest, selected =>
    if item.enabled then some selected else first_enabled_from rest (selected + 1)

/-- The body `selected++; if (selected >= item_count) selected = 0;`. -/
def menu_step_down (item_count selected : Nat) : Nat :=
  if selected + 1 ≥ item_count then 0 else selected + 1

/-- The body `selected--; if (selected < 0) selected = item_count - 1;`. -/
def menu_step_up (item_count selected : Nat) : Nat :=
  if selected = 0 then item_count - 1 else selected - 1

/-- The `do ... while (!items[selected].enabled)` loop of the down keys, run for at
most `fuel` iterations: `none` when it is still running after them. -/
def search_down (items : List tui_menu_item) : Nat → Nat → Option Nat
  | 0, _ => none
  | fuel + 1, selected =>
    let selected := menu_step_down items.length selected
    if enabled_at items selected then some selected else search_down items fuel selected

/-- The `do ... while (!items[selected].enabled)` loop of the up keys, run for at
most `fuel` iterations. -/
def search_up (items : List tui_menu_item) : Nat → Nat → Option Nat
  | 0, _ => none
  | fuel + 1, selected =>
    let selected := menu_step_up items.length selected
    if enabled_at items selected then some selected else search_up items fuel selected

/-- How far the selection loop gets on the keys given: it returns a value, it waits
for the next key with some item selected, or one of its searches is still running
after `fuel` iterations. -/
inductive menu_result where
  | returned (value : Int)
  | waiting (selected : Nat)
  | out_of_fuel
  deriving DecidableEq, Repr

/-- The `while (1)` loop of `tui_show_menu` fed with the keys `tui_get_char` returns,
in order; drawing is left out. -/
def menu_loop (items : List tui_menu_item) (fuel : Nat) : List Int → Nat → menu_result
  | [], selected => .waiting selected
  | ch :: keys, selected =>
    if ch = KEY_UP ∨ ch = 107 then
      match search_up items fuel selected with
      | some selected => menu_loop items fuel keys selected
      | none => .out_of_fuel
    else if ch = KEY_DOWN ∨ ch = 106 then
      match search_down items fuel selected with
      | some selected => menu_loop items fuel keys selected
      | none => .out_of_fuel
    else if ch = 10 ∨ ch = KEY_ENTER then .returned (id_at items selected)
    else if ch = 113 ∨ ch = 27 then .returned (-1)
    else menu_loop items fuel keys selected

/-- The function `tui_show_menu` (`window` and `items` not `NULL`, `item_count` the
length of `items`). The key codes 107, 106, 10, 113 and 27 are `k`, `j`, newline, `q`
and ESC. -/
def tui_show_menu (items : List tui_menu_item) (default_selection : Int) (keys : List Int)
    (fuel : Nat) : menu_result :=
  if items.length = 0 then .returned (-1)
  else
    let selected : Nat :=
      if default_selection < 0 ∨ default_selection ≥ items.length then 0
      else default_selection.toNat
    match first_enabled_from (items.drop selected) selected with
    | none => .returned (-1)
    | some selected => menu_loop items fuel keys selected

/-- A menu of two items of which only the first is enabled. -/
def menu_first_enabled : List tui_menu_item :=
  [{ label := "Open", description := none, id := 1, enabled := true },
   { label := "Save", description := none, id := 2, enabled := false }]

/-- One of the nine boolean-flag tokens. -/
def is_flag_token (a : String) : Bool :=
  decide (a ∈ ["-d", "--debug", "-q", "--quiet", "-v", "--verbose", "--json", "--plain",
    "--no-color"])

/-- One of the two tokens of the configuration-file option. -/
def is_config_token (a : String) : Bool :=
  decide (a = "-c" ∨ a = "--config")

/-- The list is a run of complete options: boolean flags, and `-c` / `--config` each
followed by one more token, its value. -/
def options_only : List String → Bool
  | [] => true
  | a :: rest =>
    if is_flag_token a then options_only rest
    else if is_config_token a then
      match rest with
      | [] => false
      | _ :: rest2 => options_only rest2
    else false

/-- The configuration the option loop leaves behind. -/
def config_after (opts : List String) (config : app_config) : app_config :=
  match scan_options opts config with
  | .failed _ c => c
  | .finished c _ => c

/-- The second configuration keeps the program name, the command and the command
arguments of the first, and every flag that is true in the first is true in it. -/
def config_extends (c0 c1 : app_config) : Prop :=
  c1.program_name = c0.program_name ∧ c1.command = c0.command ∧
  c1.command_args = c0.command_args ∧
  (c0.quiet = true → c1.quiet = true) ∧ (c0.debug = true → c1.debug = true) ∧
  (c0.verbose = true → c1.verbose = true) ∧ (c0.json_output = true → c1.json_output = true) ∧
  (c0.plain_output = true → c1.plain_output = true) ∧ (c0.no_color = true → c1.no_color = true)

/-- A world with no environment variable and one readable file, `config.json`, whose
contents are a JSON object that sets `debug` to true. -/
def world_debug_file : app_world :=
  { getenv := fun _ => none
    access_r := fun path => decide (path = "config.json")
    fopen_r := fun path =>
      if path = "config.json" then some "\x7b\"debug\": true\x7d" else none
    malloc_ok := true
    fread_ok := true }

/-- A world without any readable file, in which `HOME` and `APP_CONFIG_PATH` are set. -/
def world_no_file : app_world :=
  { getenv := fun name =>
      if name = "HOME" then some "/home/user"
      else if name = "APP_CONFIG_PATH" then some "/home/user/app.json"
      else none
    access_r := fun _ => false
    fopen_r := fun _ => none
    malloc_ok := true
    fread_ok := true }

/-- A world with no environment variable and one readable file, `custom.json`. -/
def world_custom_file : app_world :=
  { getenv := fun _ => none
    access_r := fun path => decide (path = "custom.json")
    fopen_r := fun path =>
      if path = "custom.json" then some "\x7b\"quiet\": true\x7d" else none
    malloc_ok := true
    fread_ok := true }

/-- A build without the terminal UI. -/
def build_plain : app_build :=
  { enable_tui := false, build_stamp := "Jan  1 2025 00:00:00", menu_session := APP_SUCCESS }

/-- The function `app_config_get_command_args` (both pointers not `NULL`): the value
stored in `*count` and the entries of the array returned. -/
def app_config_get_command_args (config : app_config) : Nat × List String :=
  (config.command_args.length, config.command_args)

/-- The configurations a program can build: the one `app_config_create` makes, and
from a configuration it has, what a setter, `app_config_add_command_arg`, a loader or
a returning `app_parse_args` makes of it. -/
inductive config_reachable : app_config → Prop where
  | create : config_reachable app_config_create
  | set_debug (c : app_config) (v : Bool) :
    config_reachable c → config_reachable (app_config_set_debug c v)
  | set_quiet (c : app_config) (v : Bool) :
    config_reachable c → config_reachable (app_config_set_quiet c v)
  | set_verbose (c : app_config) (v : Bool) :
    config_reachable c → config_reachable (app_config_set_verbose c v)
  | set_json_output (c : app_config) (v : Bool) :
    config_reachable c → config_reachable (app_config_set_json_output c v)
  | set_plain_output (c : app_config) (v : Bool) :
    config_reachable c → config_reachable (app_config_set_plain_output c v)
  | set_no_color (c : app_config) (v : Bool) :
    config_reachable c → config_reachable (app_config_set_no_color c v)
  | set_program_name (c : app_config) (name : Option String) :
    config_reachable c → config_reachable (app_config_set_program_name c name)
  | set_command (c : app_config) (command : Option String) :
    config_reachable c → config_reachable (app_config_set_command c command)
  | set_config_file (c : app_config) (path : Option String) :
    config_reachable c → config_reachable (app_config_set_config_file c path)
  | add_command_arg (c : app_config) (arg : Option String) :
    config_reachable c → config_reachable (app_config_add_command_arg c arg)
  | load_file (w : app_world) (c : app_config) (path : Option String) :
    config_reachable c → config_reachable (app_config_load_file w c path).2
  | load_env (getenv : String → Option String) (c : app_config) :
    config_reachable c → config_reachable (app_config_load_env getenv c).2
  | parse_args (argv : List String) (c : app_config) (e : app_error) (c2 : app_config) :
    config_reachable c → app_parse_args argv c = .returned e c2 → config_reachable c2

/-! ## Lemmas on the option loop -/

theorem first_char_of_flag (a : String) (h : is_flag_token a = true) : first_char a = '-' := by
  simp only [is_flag_token, decide_eq_true_eq, List.mem_cons, List.mem_singleton,
    List.not_mem_nil, or_false] at h
  rcases h with h | h | h | h | h | h | h | h | h <;> subst h <;> decide

theorem first_char_of_config (a : String) (h : is_config_token a = true) :
    first_char a = '-' := by
  simp only [is_config_token, decide_eq_true_eq] at h
  rcases h with h | h <;> subst h <;> decide

theorem scan_flag_step (a : String) (rest : List String) (config : app_config)
    (h : is_flag_token a = true) :
    scan_options (a :: rest) config = scan_options rest (config_after [a] config) := by
  simp only [is_flag_token, decide_eq_true_eq, List.mem_cons, List.mem_singleton,
    List.not_mem_nil, or_false] at h
  rcases h with h | h | h | h | h | h | h | h | h <;> subst h <;>
    (cases rest <;> simp [scan_options, config_after, first_char])

theorem scan_config_step (a p : String) (rest : List String) (config : app_config)
    (h : is_config_token a = true) :
    scan_options (a :: p :: rest) config =
      scan_options rest (app_config_set_config_file config (some p)) := by
  simp only [is_config_token, decide_eq_true_eq] at h
  rcases h with h | h <;> subst h <;> simp [scan_options, first_char]

theorem scan_config_last (a : String) (config : app_config) (h : is_config_token a = true) :
    scan_options [a] config = .failed APP_ERROR_MISSING_ARG config := by
  simp only [is_config_token, decide_eq_true_eq] at h
  rcases h with h | h <;> subst h <;> simp [scan_options, first_char]

theorem scan_unknown_step (a : String) (rest : List String) (config : app_config)
    (hdash : first_char a = '-') (hflag : is_flag_token a = false)
    (hcfg : is_config_token a = false) :
    scan_options (a :: rest) config = .failed APP_ERROR_UNKNOWN_OPTION config := by
  simp only [is_flag_token, decide_eq_false_iff_not, List.mem_cons, List.mem_singleton,
    List.not_mem_nil, or_false, not_or] at hflag
  simp only [is_config_token, decide_eq_false_iff_not, not_or] at hcfg
  obtain ⟨h1, h2, h3, h4, h5, h6, h7, h8, h9⟩ := hflag
  obtain ⟨h10, h11⟩ := hcfg
  cases rest <;> simp [scan_options, hdash, h1, h2, h3, h4, h5, h6, h7, h8, h9, h10, h11]

theorem scan_command_step (a : String) (rest : List String) (config : app_config)
    (hdash : first_char a ≠ '-') :
    scan_options (a :: rest) config = .finished config (some (a, rest)) := by
  cases rest <;> simp [scan_options, hdash]

theorem options_only_flag (a : String) (tl : List String) (hf : is_flag_token a = true) :
    options_only (a :: tl) = options_only tl := by
  cases tl <;> simp [options_only, hf]

theorem options_only_config (a p : String) (tl : List String)
    (hc : is_config_token a = true) :
    options_only (a :: p :: tl) = options_only tl := by
  by_cases hf : is_flag_token a = true
  · simp only [is_config_token, decide_eq_true_eq] at hc
    rcases hc with hc | hc <;> subst hc <;> exact absurd hf (by decide)
  · simp [options_only, hf, hc]

theorem config_after_flag (a : String) (tl : List String) (config : app_config)
    (hf : is_flag_token a = true) :
    config_after (a :: tl) config = config_after tl (config_after [a] config) := by
  have h := scan_flag_step a tl config hf
  unfold config_after
  rw [h]
  rfl

theorem config_after_config (a p : String) (tl : List String) (config : app_config)
    (hc : is_config_token a = true) :
    config_after (a :: p :: tl) config =
      config_after tl (app_config_set_config_file config (some p)) := by
  have h := scan_config_step a p tl config hc
  unfold config_after
  rw [h]

theorem scan_options_append (opts rest : List String) (config : app_config)
    (h : options_only opts = true) :
    scan_options (opts ++ rest) config = scan_options rest (config_after opts config) := by
  induction opts using options_only.induct generalizing config with
  | case1 => simp [config_after, scan_options]
  | case2 a tl hf ih =>
    rw [options_only_flag a tl hf] at h
    rw [List.cons_append, scan_flag_step a _ _ hf, ih _ h, config_after_flag a tl config hf]
  | case3 a hf hc =>
    simp [options_only, hf, hc] at h
  | case4 a hf hc p tl ih =>
    rw [options_only_config a p tl hc] at h
    rw [List.cons_append, List.cons_append, scan_config_step a p _ _ hc, ih _ h,
      config_after_config a p tl config hc]
  | case5 a tl hf hc =>
    cases tl <;> simp [options_only, hf, hc] at h

theorem scan_options_only (opts : List String) (config : app_config)
    (h : options_only opts = true) :
    scan_options opts config = .finished (config_after opts config) none := by
  have := scan_options_append opts [] config h
  simpa [scan_options] using this

theorem config_extends_refl (c : app_config) : config_extends c c := by
  simp [config_extends]

theorem config_extends_trans {c0 c1 c2 : app_config} (h01 : config_extends c0 c1)
    (h12 : config_extends c1 c2) : config_extends c0 c2 := by
  obtain ⟨a1, a2, a3, a4, a5, a6, a7, a8, a9⟩ := h01
  obtain ⟨b1, b2, b3, b4, b5, b6, b7, b8, b9⟩ := h12
  exact ⟨b1.trans a1, b2.trans a2, b3.trans a3, fun h => b4 (a4 h), fun h => b5 (a5 h),
    fun h => b6 (a6 h), fun h => b7 (a7 h), fun h => b8 (a8 h), fun h => b9 (a9 h)⟩

theorem config_extends_flag (a : String) (config : app_config)
    (hf : is_flag_token a = true) : config_extends config (config_after [a] config) := by
  simp only [is_flag_token, decide_eq_true_eq, List.mem_cons, List.mem_singleton,
    List.not_mem_nil, or_false] at hf
  rcases hf with h | h | h | h | h | h | h | h | h <;> subst h <;>
    simp [config_extends, config_after, scan_options, first_char, app_config_set_debug,
      app_config_set_quiet, app_config_set_verbose, app_config_set_json_output,
      app_config_set_plain_output, app_config_set_no_color]

theorem config_extends_config_file (config : app_config) (p : Option String) :
    config_extends config (app_config_set_config_file config p) := by
  cases p <;> simp [config_extends, app_config_set_config_file]

/-- Whatever the tokens, the option loop keeps the program name, the command and the
command arguments, and never clears a flag. -/
theorem config_extends_scan (toks : List String) (config : app_config) :
    config_extends config (config_after toks config) := by
  induction toks using options_only.induct generalizing config with
  | case1 => simp [config_after, scan_options, config_extends]
  | case2 a tl hf ih =>
    rw [config_after_flag a tl config hf]
    exact config_extends_trans (config_extends_flag a config hf) (ih _)
  | case3 a hf hc =>
    simp only [config_after, scan_config_last a config hc]
    exact config_extends_refl config
  | case4 a hf hc p tl ih =>
    rw [config_after_config a p tl config hc]
    exact config_extends_trans (config_extends_config_file config (some p)) (ih _)
  | case5 a tl hf hc =>
    by_cases hd : first_char a = '-'
    · simp only [config_after, scan_unknown_step a tl config hd (by simpa using hf)
        (by simpa using hc)]
      exact config_extends_refl config
    · simp only [config_after, scan_command_step a tl config hd]
      exact config_extends_refl config

theorem help_requested_append (xs ys : List String) :
    help_requested (xs ++ ys) = (help_requested xs || help_requested ys) := by
  induction xs with
  | nil => simp [help_requested]
  | cons a tl ih =>
    by_cases h : a = "-h" ∨ a = "--help" <;> simp [help_requested, h, ih]

theorem version_requested_append (xs ys : List String) :
    version_requested (xs ++ ys) = (version_requested xs || version_requested ys) := by
  induction xs with
  | nil => simp [version_requested]
  | cons a tl ih =>
    by_cases h : a = "--version" <;> simp [version_requested, h, ih]

theorem help_requested_iff (toks : List String) :
    help_requested toks = true ↔ ∃ a ∈ toks, a = "-h" ∨ a = "--help" := by
  induction toks with
  | nil => simp [help_requested]
  | cons a tl ih =>
    by_cases h : a = "-h" ∨ a = "--help"
    · simp only [help_requested, h, if_true, true_iff]
      exact ⟨a, List.mem_cons_self a tl, h⟩
    · simp only [help_requested, h, if_false, ih, List.mem_cons, exists_eq_or_imp, false_or]

/-- The last loop appends the arguments that fit below `MAX_COMMAND_ARGS` and touches
nothing else. -/
theorem add_command_args_eq (rest : List String) (config : app_config) :
    add_command_args rest config = { config with
      command_args := config.command_args ++
        rest.take (MAX_COMMAND_ARGS - config.command_args.length) } := by
  induction rest generalizing config with
  | nil => simp [add_command_args]
  | cons a tl ih =>
    simp only [add_command_args, app_config_add_command_arg]
    by_cases hlt : config.command_args.length < MAX_COMMAND_ARGS
    · rw [if_pos hlt, ih]
      have h1 : MAX_COMMAND_ARGS - config.command_args.length =
          (MAX_COMMAND_ARGS - (config.command_args.length + 1)) + 1 := by omega
      simp only [List.length_append, List.length_singleton]
      rw [h1, List.take_succ_cons]
      simp
    · rw [if_neg hlt, ih]
      have h0 : MAX_COMMAND_ARGS - config.command_args.length = 0 := by omega
      simp [h0]

/-- The parser once neither help nor version is requested. -/
theorem app_parse_args_scan (prog : String) (toks : List String) (config : app_config)
    (hhelp : help_requested toks = false) (hver : version_requested toks = false) :
    app_parse_args (prog :: toks) config =
      match scan_options toks (app_config_set_program_name config (some prog)) with
      | .failed err c => .returned err c
      | .finished c none => .returned APP_SUCCESS c
      | .finished c (some (command, rest)) =>
        .returned APP_SUCCESS (add_command_args rest (app_config_set_command c (some command))) := by
  simp [app_parse_args, hhelp, hver]

/-- The parser on a run of complete options followed by more tokens. -/
theorem app_parse_args_options (prog : String) (opts rest : List String)
    (config : app_config) (hopts : options_only opts = true)
    (hhelp : help_requested (opts ++ rest) = false)
    (hver : version_requested (opts ++ rest) = false) :
    app_parse_args (prog :: (opts ++ rest)) config =
      match scan_options rest
        (config_after opts (app_config_set_program_name config (some prog))) with
      | .failed err c => .returned err c
      | .finished c none => .returned APP_SUCCESS c
      | .finished c (some (command, tl)) =>
        .returned APP_SUCCESS (add_command_args tl (app_config_set_command c (some command))) := by
  rw [app_parse_args_scan prog _ config hhelp hver, scan_options_append opts rest _ hopts]

theorem config_after_program_name (prog : String) (opts : List String) (config : app_config) :
    config_extends { config with program_name := some prog }
      (config_after opts (app_config_set_program_name config (some prog))) :=
  config_extends_scan opts _

/-- Without a help or version token the call returns, and the options of the returned
configuration (file path and flags) are those the option loop left. -/
theorem app_parse_args_returned (prog : String) (toks : List String) (config : app_config)
    (hhelp : help_requested toks = false) (hver : version_requested toks = false) :
    ∃ e c, app_parse_args (prog :: toks) config = .returned e c ∧
      c.config_file =
        (config_after toks (app_config_set_program_name config (some prog))).config_file ∧
      c.no_color =
        (config_after toks (app_config_set_program_name config (some prog))).no_color ∧
      c.debug =
        (config_after toks (app_config_set_program_name config (some prog))).debug := by
  rw [app_parse_args_scan prog toks config hhelp hver]
  unfold config_after
  cases hs : scan_options toks (app_config_set_program_name config (some prog)) with
  | failed err c => exact ⟨_, _, rfl, rfl, rfl, rfl⟩
  | finished c command =>
    cases command with
    | none => exact ⟨_, _, rfl, rfl, rfl, rfl⟩
    | some pr =>
      obtain ⟨cmd, tl⟩ := pr
      refine ⟨_, _, rfl, ?_, ?_, ?_⟩ <;> rw [add_command_args_eq] <;>
        simp [app_config_set_command]

/-- Tokens other than `-c` / `--config` leave the configuration-file path alone. -/
theorem config_after_config_file (toks : List String) (config : app_config)
    (h : ∀ t ∈ toks, is_config_token t = false) :
    (config_after toks config).config_file = config.config_file := by
  induction toks generalizing config with
  | nil => simp [config_after, scan_options]
  | cons a tl ih =>
    have ha : is_config_token a = false := h a (List.mem_cons_self a tl)
    have htl : ∀ t ∈ tl, is_config_token t = false :=
      fun t ht => h t (List.mem_cons_of_mem a ht)
    by_cases hd : first_char a = '-'
    · by_cases hf : is_flag_token a = true
      · rw [config_after_flag a tl config hf, ih _ htl]
        simp only [is_flag_token, decide_eq_true_eq, List.mem_cons, List.mem_singleton,
          List.not_mem_nil, or_false] at hf
        rcases hf with h | h | h | h | h | h | h | h | h <;> subst h <;>
          simp [config_after, scan_options, first_char, app_config_set_debug,
            app_config_set_quiet, app_config_set_verbose, app_config_set_json_output,
            app_config_set_plain_output, app_config_set_no_color]
      · simp only [config_after, scan_unknown_step a tl config hd (by simpa using hf) ha]
    · simp only [config_after, scan_command_step a tl config hd]

theorem set_program_name_idem (c : app_config) (prog : String) (p : Option String)
    (h : c.program_name = some prog) :
    app_config_set_program_name (app_config_set_config_file c p) (some prog) =
      app_config_set_config_file c p := by
  cases c
  cases p <;> simp_all [app_config_set_program_name, app_config_set_config_file]

theorem app_config_load_env_no_color (getenv : String → Option String) (config : app_config) :
    (app_config_load_env getenv config).2.no_color =
      (config.no_color || (getenv "NO_COLOR").isSome) := by
  unfold app_config_load_env
  cases getenv "NO_COLOR" <;> cases getenv "APP_LOG_LEVEL" <;> simp <;> split <;> simp

theorem app_config_load_env_debug (getenv : String → Option String) (config : app_config) :
    (app_config_load_env getenv config).2.debug =
      (config.debug || decide (getenv "APP_LOG_LEVEL" = some "DEBUG")) := by
  unfold app_config_load_env
  cases getenv "NO_COLOR" <;> cases getenv "APP_LOG_LEVEL" <;> simp <;> split <;> simp [*]

/-! ## C1: command name and command arguments -/

/-- C1 (as amended): for every argument vector without a help or version token whose
tokens before the first token not starting with `-` are complete recognised options,
`app_parse_args` returns `APP_SUCCESS`, makes that token the command name and appends
the tokens after it, in order and unexamined, as command arguments, up to the capacity
`MAX_COMMAND_ARGS`; the tokens that do not fit are dropped. -/
theorem C1_command_then_literal_args (prog : String) (opts : List String) (cmd : String)
    (rest : List String) (config : app_config)
    (hopts : options_only opts = true) (hcmd : first_char cmd ≠ '-')
    (hhelp : help_requested (opts ++ cmd :: rest) = false)
    (hver : version_requested (opts ++ cmd :: rest) = false) :
    ∃ c, app_parse_args (prog :: (opts ++ cmd :: rest)) config = .returned APP_SUCCESS c ∧
      c.command = some cmd ∧
      c.command_args = config.command_args ++
        rest.take (MAX_COMMAND_ARGS - config.command_args.length) := by
  obtain ⟨-, -, hargs, -⟩ := config_after_program_name prog opts config
  rw [app_parse_args_options prog opts _ config hopts hhelp hver,
    scan_command_step cmd rest _ hcmd]
  refine ⟨_, rfl, ?_, ?_⟩
  · rw [add_command_args_eq]
    simp [app_config_set_command]
  · rw [add_command_args_eq]
    simp [app_config_set_command, hargs]

/-- C1, witness: `app echo -x` gives command `echo` and arguments `[-x]`. -/
theorem C1_command_then_literal_args_witness :
    ∃ c, app_parse_args ("app" :: ([] ++ "echo" :: ["-x"])) app_config_create =
        .returned APP_SUCCESS c ∧
      c.command = some "echo" ∧
      c.command_args = app_config_create.command_args ++
        ["-x"].take (MAX_COMMAND_ARGS - app_config_create.command_args.length) :=
  C1_command_then_literal_args "app" [] "echo" ["-x"] app_config_create
    (by decide) (by decide) (by decide) (by decide)

/-- C1, counterexample: in `app echo -h` the token after the command name is examined
and the process exits with the help text, and of 101 tokens after the command name only
the first 100 become command arguments. -/
theorem C1_counterexample :
    (¬ ∃ c, app_parse_args ["app", "echo", "-h"] app_config_create =
        .returned APP_SUCCESS c ∧ c.command = some "echo" ∧ c.command_args = ["-h"]) ∧
    (¬ ∃ c, app_parse_args ("app" :: "echo" :: List.replicate 101 "x") app_config_create =
        .returned APP_SUCCESS c ∧ c.command = some "echo" ∧
        c.command_args = List.replicate 101 "x") := by
  constructor
  · rintro ⟨c, h, -⟩
    have hexit : app_parse_args ["app", "echo", "-h"] app_config_create =
        .exited 0 .verbose_usage := by decide
    rw [hexit] at h
    cases h
  · rintro ⟨c, h, -, hargs⟩
    have hrun := app_parse_args_scan "app" ("echo" :: List.replicate 101 "x")
      app_config_create (by decide) (by decide)
    rw [scan_command_step "echo" _ _ (by decide)] at hrun
    dsimp only at hrun
    rw [add_command_args_eq] at hrun
    rw [hrun] at h
    injection h with _ hc
    subst hc
    have hlen := congrArg List.length hargs
    simp [app_config_set_command, app_config_set_program_name, app_config_create,
      MAX_COMMAND_ARGS] at hlen

/-! ## C2: flag independence -/

/-- C2: for each of the nine boolean-flag tokens and every prior configuration,
`app_parse_args` on that token returns `APP_SUCCESS` and sets exactly the corresponding
flag to true: the other five flags, the configuration-file path, the command name and
the command arguments keep their prior values (the program name is the one of the
vector). -/
theorem C2_flag_sets_only_its_field (prog : String) (config : app_config) :
    app_parse_args [prog, "-d"] config =
      .returned APP_SUCCESS { config with program_name := some prog, debug := true } ∧
    app_parse_args [prog, "--debug"] config =
      .returned APP_SUCCESS { config with program_name := some prog, debug := true } ∧
    app_parse_args [prog, "-q"] config =
      .returned APP_SUCCESS { config with program_name := some prog, quiet := true } ∧
    app_parse_args [prog, "--quiet"] config =
      .returned APP_SUCCESS { config with program_name := some prog, quiet := true } ∧
    app_parse_args [prog, "-v"] config =
      .returned APP_SUCCESS { config with program_name := some prog, verbose := true } ∧
    app_parse_args [prog, "--verbose"] config =
      .returned APP_SUCCESS { config with program_name := some prog, verbose := true } ∧
    app_parse_args [prog, "--json"] config =
      .returned APP_SUCCESS { config with program_name := some prog, json_output := true } ∧
    app_parse_args [prog, "--plain"] config =
      .returned APP_SUCCESS { config with program_name := some prog, plain_output := true } ∧
    app_parse_args [prog, "--no-color"] config =
      .returned APP_SUCCESS { config with program_name := some prog, no_color := true } := by
  refine ⟨?_, ?_, ?_, ?_, ?_, ?_, ?_, ?_, ?_⟩ <;>
    simp [app_parse_args, help_requested, version_requested, scan_options, first_char,
      app_config_set_program_name, app_config_set_debug, app_config_set_quiet,
      app_config_set_verbose, app_config_set_json_output, app_config_set_plain_output,
      app_config_set_no_color]

/-! ## C3: `-c` / `--config` without a value -/

/-- C3 (as amended): when the vector has no help or version token and the tokens before
a final `-c` / `--config` are complete recognised options, so that option scanning
reaches that last token, `app_parse_args` returns `APP_ERROR_MISSING_ARG`. -/
theorem C3_trailing_config_missing_arg (prog : String) (opts : List String) (tok : String)
    (config : app_config) (hopts : options_only opts = true)
    (htok : tok = "-c" ∨ tok = "--config")
    (hhelp : help_requested opts = false) (hver : version_requested opts = false) :
    ∃ c, app_parse_args (prog :: (opts ++ [tok])) config =
      .returned APP_ERROR_MISSING_ARG c := by
  have hc : is_config_token tok = true := by simpa [is_config_token] using htok
  have hhelp2 : help_requested (opts ++ [tok]) = false := by
    rw [help_requested_append, hhelp]
    rcases htok with h | h <;> subst h <;> decide
  have hver2 : version_requested (opts ++ [tok]) = false := by
    rw [version_requested_append, hver]
    rcases htok with h | h <;> subst h <;> decide
  rw [app_parse_args_options prog opts _ config hopts hhelp2 hver2,
    scan_config_last tok _ hc]
  exact ⟨_, rfl⟩

/-- C3, witness: `app -d --config x -c`. -/
theorem C3_trailing_config_missing_arg_witness :
    ∃ c, app_parse_args ("app" :: (["-d", "--config", "x"] ++ ["-c"])) app_config_create =
      .returned APP_ERROR_MISSING_ARG c :=
  C3_trailing_config_missing_arg "app" ["-d", "--config", "x"] "-c" app_config_create
    (by decide) (Or.inl rfl) (by decide) (by decide)

/-- C3, counterexample: in `app echo -c` the last token is `-c`, and the call returns
`APP_SUCCESS` with `-c` as a command argument; in `app -c -c` the last `-c` is the value
of the first and the call returns `APP_SUCCESS` too. -/
theorem C3_counterexample :
    app_parse_args ["app", "echo", "-c"] app_config_create =
      .returned APP_SUCCESS { app_config_create with
        program_name := some "app", command := some "echo", command_args := ["-c"] } ∧
    app_parse_args ["app", "-c", "-c"] app_config_create =
      .returned APP_SUCCESS { app_config_create with
        program_name := some "app", config_file := some "-c" } ∧
    ¬ ∃ c, app_parse_args ["app", "echo", "-c"] app_config_create =
      .returned APP_ERROR_MISSING_ARG c := by
  refine ⟨by decide, by decide, ?_⟩
  rintro ⟨c, h⟩
  have hrun : app_parse_args ["app", "echo", "-c"] app_config_create =
      .returned APP_SUCCESS { app_config_create with
        program_name := some "app", command := some "echo", command_args := ["-c"] } := by
    decide
  rw [hrun] at h
  injection h with he _
  cases he

/-! ## C4: unknown options -/

/-- The bare tokens `-` and `--`, the bundle `-dq` and `--config=PATH` start with `-`
and are none of the recognised tokens. -/
theorem unknown_token_examples :
    ∀ t ∈ ["-", "--", "-dq", "--config=PATH"],
      first_char t = '-' ∧ is_flag_token t = false ∧ is_config_token t = false := by
  decide

/-- C4: in a vector without a help or version token, when option scanning reaches a
token that starts with `-` and is none of the recognised options, `app_parse_args`
returns `APP_ERROR_UNKNOWN_OPTION`; the command name and the command arguments are the
prior ones, and the result is the one of the vector cut right after that token, so the
later tokens have no influence. -/
theorem C4_unknown_option_aborts (prog : String) (opts : List String) (tok : String)
    (rest : List String) (config : app_config) (hopts : options_only opts = true)
    (hdash : first_char tok = '-') (hflag : is_flag_token tok = false)
    (hcfg : is_config_token tok = false)
    (hhelp : help_requested (opts ++ tok :: rest) = false)
    (hver : version_requested (opts ++ tok :: rest) = false) :
    ∃ c, app_parse_args (prog :: (opts ++ tok :: rest)) config =
        .returned APP_ERROR_UNKNOWN_OPTION c ∧
      c.command = config.command ∧ c.command_args = config.command_args ∧
      app_parse_args (prog :: (opts ++ [tok])) config = .returned APP_ERROR_UNKNOWN_OPTION c := by
  obtain ⟨-, hcmd, hargs, -⟩ := config_after_program_name prog opts config
  have hhelp2 : help_requested (opts ++ [tok]) = false := by
    rw [help_requested_append] at hhelp ⊢
    simp only [Bool.or_eq_false_iff] at hhelp ⊢
    refine ⟨hhelp.1, ?_⟩
    have h2 := hhelp.2
    by_cases h : tok = "-h" ∨ tok = "--help"
    · simp [help_requested, h] at h2
    · simp [help_requested, h]
  have hver2 : version_requested (opts ++ [tok]) = false := by
    rw [version_requested_append] at hver ⊢
    simp only [Bool.or_eq_false_iff] at hver ⊢
    refine ⟨hver.1, ?_⟩
    have h2 := hver.2
    by_cases h : tok = "--version"
    · simp [version_requested, h] at h2
    · simp [version_requested, h]
  rw [app_parse_args_options prog opts _ config hopts hhelp hver,
    app_parse_args_options prog opts _ config hopts hhelp2 hver2,
    scan_unknown_step tok rest _ hdash hflag hcfg, scan_unknown_step tok [] _ hdash hflag hcfg]
  exact ⟨_, rfl, hcmd, hargs, rfl⟩

/-- C4, witness: the bundled token `-dq` after `-v`, with tokens after it. -/
theorem C4_unknown_option_aborts_witness :
    ∃ c, app_parse_args ("app" :: (["-v"] ++ "-dq" :: ["echo", "-c"])) app_config_create =
        .returned APP_ERROR_UNKNOWN_OPTION c ∧
      c.command = app_config_create.command ∧
      c.command_args = app_config_create.command_args ∧
      app_parse_args ("app" :: (["-v"] ++ ["-dq"])) app_config_create =
        .returned APP_ERROR_UNKNOWN_OPTION c :=
  C4_unknown_option_aborts "app" ["-v"] "-dq" ["echo", "-c"] app_config_create
    (by decide) (by decide) (by decide) (by decide) (by decide) (by decide)

/-! ## C5: the value of `-c` / `--config` -/

/-- C5: when option scanning reaches `-c` / `--config` followed by a token `P`, the
call continues with the tokens after `P` from the configuration whose file path is `P`:
the result is the one of parsing those tokens alone from that configuration, so `P` is
stored and skipped, never read as an option or as the command name. When no
`-c` / `--config` token follows, the call returns with `P` as the file path, whatever
earlier `-c` / `--config` options stored. -/
theorem C5_config_value_stored_and_skipped (prog : String) (opts : List String)
    (tok P : String) (rest : List String) (config : app_config)
    (hopts : options_only opts = true) (htok : tok = "-c" ∨ tok = "--config")
    (hhelp : help_requested (opts ++ tok :: P :: rest) = false)
    (hver : version_requested (opts ++ tok :: P :: rest) = false) :
    ∃ c1, app_parse_args (prog :: opts) config = .returned APP_SUCCESS c1 ∧
      app_parse_args (prog :: (opts ++ tok :: P :: rest)) config =
        app_parse_args (prog :: rest) (app_config_set_config_file c1 (some P)) ∧
      ((∀ t ∈ rest, is_config_token t = false) →
        ∃ e c, app_parse_args (prog :: (opts ++ tok :: P :: rest)) config = .returned e c ∧
          c.config_file = some P) := by
  have hc : is_config_token tok = true := by simpa [is_config_token] using htok
  obtain ⟨hname, -⟩ := config_after_program_name prog opts config
  rw [help_requested_append] at hhelp
  rw [version_requested_append] at hver
  simp only [Bool.or_eq_false_iff] at hhelp hver
  have hhelp_rest : help_requested rest = false := by
    have h2 := hhelp.2
    by_cases h : tok = "-h" ∨ tok = "--help"
    · simp [help_requested, h] at h2
    · by_cases h3 : P = "-h" ∨ P = "--help"
      · simp [help_requested, h, h3] at h2
      · simpa [help_requested, h, h3] using h2
  have hver_rest : version_requested rest = false := by
    have h2 := hver.2
    by_cases h : tok = "--version"
    · simp [version_requested, h] at h2
    · by_cases h3 : P = "--version"
      · simp [version_requested, h, h3] at h2
      · simpa [version_requested, h, h3] using h2
  have hhelp_all : help_requested (opts ++ tok :: P :: rest) = false := by
    rw [help_requested_append, hhelp.1, hhelp.2]; rfl
  have hver_all : version_requested (opts ++ tok :: P :: rest) = false := by
    rw [version_requested_append, hver.1, hver.2]; rfl
  have hfix : app_config_set_program_name
      (app_config_set_config_file
        (config_after opts (app_config_set_program_name config (some prog))) (some P))
      (some prog) =
      app_config_set_config_file
        (config_after opts (app_config_set_program_name config (some prog))) (some P) :=
    set_program_name_idem _ prog (some P) hname
  have hstep : app_parse_args (prog :: (opts ++ tok :: P :: rest)) config =
      app_parse_args (prog :: rest) (app_config_set_config_file
        (config_after opts (app_config_set_program_name config (some prog))) (some P)) := by
    rw [app_parse_args_options prog opts _ config hopts hhelp_all hver_all,
      scan_config_step tok P rest _ hc, app_parse_args_scan prog rest _ hhelp_rest hver_rest,
      hfix]
  refine ⟨config_after opts (app_config_set_program_name config (some prog)), ?_, hstep, ?_⟩
  · rw [app_parse_args_scan prog opts config hhelp.1 hver.1, scan_options_only opts _ hopts]
  · intro hrest
    obtain ⟨e, c, hret, hfile, -⟩ := app_parse_args_returned prog rest
      (app_config_set_config_file
        (config_after opts (app_config_set_program_name config (some prog))) (some P))
      hhelp_rest hver_rest
    refine ⟨e, c, hstep.trans hret, ?_⟩
    rw [hfile, hfix, config_after_config_file rest _ hrest]
    simp [app_config_set_config_file]

/-- C5, witness: in `app -c first --config -d echo hello` the value `-d` of the second
option is stored as the file path; it neither sets the debug flag nor becomes the
command, and the first value is overwritten. -/
theorem C5_config_value_stored_and_skipped_witness :
    (∃ c1, app_parse_args ("app" :: ["-c", "first"]) app_config_create =
        .returned APP_SUCCESS c1 ∧
      app_parse_args ("app" :: (["-c", "first"] ++ "--config" :: "-d" :: ["echo", "hello"]))
          app_config_create =
        app_parse_args ("app" :: ["echo", "hello"])
          (app_config_set_config_file c1 (some "-d"))) ∧
    (∃ e c, app_parse_args
        ("app" :: (["-c", "first"] ++ "--config" :: "-d" :: ["echo", "hello"]))
        app_config_create = .returned e c ∧
      c.config_file = some "-d") :=
  match C5_config_value_stored_and_skipped "app" ["-c", "first"] "--config" "-d"
    ["echo", "hello"] app_config_create (by decide) (Or.inr rfl) (by decide) (by decide) with
  | ⟨c1, h1, h2, h3⟩ => ⟨⟨c1, h1, h2⟩, h3 (by decide)⟩

/-! ## C6: help -/

/-- C6: whenever `-h` or `--help` is among the tokens after the program name,
`app_parse_args` prints the usage text and ends the process with exit code 0; it does
not return, whatever the other tokens are. -/
theorem C6_help_exits_zero (argv : List String) (config : app_config)
    (h : ∃ a ∈ argv.tail, a = "-h" ∨ a = "--help") :
    app_parse_args argv config = .exited 0 .verbose_usage := by
  have hh : help_requested argv.tail = true := (help_requested_iff argv.tail).2 h
  simp [app_parse_args, hh]

/-- C6, witness: `app echo --bogus --version -c --help`. -/
theorem C6_help_exits_zero_witness :
    (∃ a ∈ (["app", "echo", "--bogus", "--version", "-c", "--help"] : List String).tail,
      a = "-h" ∨ a = "--help") ∧
    app_parse_args ["app", "echo", "--bogus", "--version", "-c", "--help"] app_config_create =
      .exited 0 .verbose_usage :=
  ⟨⟨"--help", by decide, Or.inr rfl⟩,
    C6_help_exits_zero ["app", "echo", "--bogus", "--version", "-c", "--help"]
      app_config_create ⟨"--help", by decide, Or.inr rfl⟩⟩

/-! ## C7: vectors made of options only -/

/-- C7 (as amended): for every argument vector without a help or version token that
consists only of complete recognised options (boolean flags, and `-c` / `--config` each
followed by its value), the empty vector included, `app_parse_args` returns
`APP_SUCCESS` and leaves the command name and the command arguments as they were; on a
freshly created configuration the empty vector changes nothing but the program name. -/
theorem C7_options_only_no_command (prog : String) (opts : List String)
    (config : app_config) (hopts : options_only opts = true)
    (hhelp : help_requested opts = false) (hver : version_requested opts = false) :
    (∃ c, app_parse_args (prog :: opts) config = .returned APP_SUCCESS c ∧
      c.command = config.command ∧ c.command_args = config.command_args) ∧
    app_parse_args [prog] app_config_create =
      .returned APP_SUCCESS { app_config_create with program_name := some prog } := by
  obtain ⟨-, hcmd, hargs, -⟩ := config_after_program_name prog opts config
  constructor
  · rw [app_parse_args_scan prog opts config hhelp hver, scan_options_only opts _ hopts]
    exact ⟨_, rfl, hcmd, hargs⟩
  · simp [app_parse_args, help_requested, version_requested, scan_options,
      app_config_set_program_name]

/-- C7, witness: `app -q --config conf.json --json` on a fresh configuration. -/
theorem C7_options_only_no_command_witness :
    (∃ c, app_parse_args ("app" :: ["-q", "--config", "conf.json", "--json"])
        app_config_create = .returned APP_SUCCESS c ∧
      c.command = app_config_create.command ∧
      c.command_args = app_config_create.command_args) ∧
    app_parse_args ["app"] app_config_create =
      .returned APP_SUCCESS { app_config_create with program_name := some "app" } :=
  C7_options_only_no_command "app" ["-q", "--config", "conf.json", "--json"]
    app_config_create (by decide) (by decide) (by decide)

/-- C7, counterexample: `app -c` consists of one recognised option and the call
returns `APP_ERROR_MISSING_ARG`, not `APP_SUCCESS`; `app --help` does not return. -/
theorem C7_counterexample :
    app_parse_args ["app", "-c"] app_config_create =
      .returned APP_ERROR_MISSING_ARG { app_config_create with program_name := some "app" } ∧
    app_parse_args ["app", "--help"] app_config_create = .exited 0 .verbose_usage ∧
    ¬ ∃ c, app_parse_args ["app", "-c"] app_config_create = .returned APP_SUCCESS c := by
  refine ⟨by decide, by decide, ?_⟩
  rintro ⟨c, h⟩
  have hrun : app_parse_args ["app", "-c"] app_config_create =
      .returned APP_ERROR_MISSING_ARG
        { app_config_create with program_name := some "app" } := by
    decide
  rw [hrun] at h
  injection h with he _
  cases he

/-! ## C8: environment, then command line -/

/-- Whatever the world, the file and the path, `app_config_load_file` returns the
configuration it was given. -/
theorem app_config_load_file_config (w : app_world) (config : app_config)
    (path : Option String) : (app_config_load_file w config path).2 = config := by
  unfold app_config_load_file
  dsimp only
  split
  · rfl
  · split
    · rfl
    · split
      · rfl
      · split <;> rfl

/-- C9, the code at the failing input: loading `config.json`, a readable file whose
JSON object sets `debug` to true, on a fresh configuration returns `APP_SUCCESS` and
the fresh configuration, in which `debug` is still false. -/
theorem C9_file_value_not_loaded :
    world_debug_file.fopen_r "config.json" = some "\x7b\"debug\": true\x7d" ∧
    app_config_load_file world_debug_file app_config_create (some "config.json") =
      (APP_SUCCESS, app_config_create) ∧
    (app_config_load_file world_debug_file app_config_create (some "config.json")).2.debug =
      false := by
  refine ⟨by decide, by decide, by decide⟩

/-! ## C10: environment variables -/

/-- C10: for every environment and prior configuration `app_config_load_env` returns
`APP_SUCCESS`; afterwards `no_color` is true iff `NO_COLOR` is present (with any value)
or it was true before, `debug` is true iff `APP_LOG_LEVEL` is exactly `DEBUG` or it was
true before, and every other field is unchanged. -/
theorem C10_load_env (getenv : String → Option String) (config : app_config) :
    (app_config_load_env getenv config).1 = APP_SUCCESS ∧
    ((app_config_load_env getenv config).2.no_color = true ↔
      (getenv "NO_COLOR").isSome = true ∨ config.no_color = true) ∧
    ((app_config_load_env getenv config).2.debug = true ↔
      getenv "APP_LOG_LEVEL" = some "DEBUG" ∨ config.debug = true) ∧
    (app_config_load_env getenv config).2.program_name = config.program_name ∧
    (app_config_load_env getenv config).2.command = config.command ∧
    (app_config_load_env getenv config).2.command_args = config.command_args ∧
    (app_config_load_env getenv config).2.config_file = config.config_file ∧
    (app_config_load_env getenv config).2.quiet = config.quiet ∧
    (app_config_load_env getenv config).2.verbose = config.verbose ∧
    (app_config_load_env getenv config).2.json_output = config.json_output ∧
    (app_config_load_env getenv config).2.plain_output = config.plain_output := by
  refine ⟨rfl, ?_, ?_, ?_, ?_, ?_, ?_, ?_, ?_, ?_, ?_⟩
  · rw [app_config_load_env_no_color]
    simp [or_comm]
  · rw [app_config_load_env_debug]
    simp [or_comm]
  all_goals
    unfold app_config_load_env
    cases getenv "NO_COLOR" <;> cases getenv "APP_LOG_LEVEL" <;> simp <;> split <;> rfl

/-! ## C11: a missing configuration file -/

/-- The loader in terms of the path it opens. -/
theorem app_config_load_file_eq (w : app_world) (config : app_config)
    (path : Option String) :
    app_config_load_file w config path =
      match app_config_load_file_path w path with
      | none => (APP_SUCCESS, config)
      | some p =>
        match w.fopen p with
        | none => ( APP_ERROR_IO, config)
        | some _ =>
          if !w.malloc_ok then (APP_ERROR_MEMORY, config)
          else if !w.fread_ok then ( APP_ERROR_IO, config)
          else (APP_SUCCESS, config) := by
  cases path <;> rfl

/-- A text whose bytes fit is cut nowhere. -/
theorem cut_bytes_fits (l : List Char) :
    ∀ n, String.utf8ByteSize.go l ≤ n → cut_bytes l n = (l, []) := by
  induction l with
  | nil => intro n _; rfl
  | cons c rest ih =>
    intro n h
    simp only [String.utf8ByteSize.go] at h
    have hc : c.utf8Size ≤ n := by omega
    simp only [cut_bytes, if_pos hc]
    rw [ih (n - c.utf8Size) (by omega)]

/-- A formatted text of at most `PATH_MAX - 1` bytes is in the buffer as it is. -/
theorem snprintf_path_short (formatted : String)
    (h : formatted.utf8ByteSize ≤ PATH_MAX - 1) :
    snprintf_path formatted = .text formatted := by
  have hcut := cut_bytes_fits formatted.data (PATH_MAX - 1) h
  simp [snprintf_path, hcut]

/-- The cut is made in bytes: of two characters of two bytes each, three bytes keep
the first character and the leading byte of the second. -/
theorem cut_bytes_example :
    cut_bytes ['é', 'é'] 3 = (['é'], [195]) ∧ cut_bytes ['é', 'é'] 2 = (['é'], []) ∧
    cut_bytes ['a', 'b', 'c'] 2 = (['a', 'b'], []) := by
  decide

/-- The system-wide location is short enough to be probed as it is. -/
theorem snprintf_path_etc :
    snprintf_path ("/etc/" ++ APP_NAME ++ "/config.json") = .text "/etc/myapp/config.json" := by
  decide

/-- When none of the three probed locations is readable, no file is found. -/
theorem find_config_file_none (w : app_world)
    (henv : ∀ p, w.getenv "APP_CONFIG_PATH" = some p → w.access_r p = false)
    (hhome : ∀ home, w.getenv "HOME" = some home →
      w.access (snprintf_path (home ++ "/.config/" ++ APP_NAME ++ "/config.json")) = false)
    (hetc : w.access_r "/etc/myapp/config.json" = false) :
    find_config_file w = none := by
  have hetc2 : w.access (snprintf_path ("/etc/" ++ APP_NAME ++ "/config.json")) = false := by
    rw [snprintf_path_etc]
    exact hetc
  unfold find_config_file
  cases h1 : w.getenv "APP_CONFIG_PATH" with
  | none =>
    cases h2 : w.getenv "HOME" with
    | none => simp [hetc2]
    | some home => simp [hhome home h2, hetc2]
  | some p =>
    cases h2 : w.getenv "HOME" with
    | none => simp [henv p h1, hetc2]
    | some home => simp [henv p h1, hhome home h2, hetc2]

/-- Nothing is readable in the world without files. -/
theorem world_no_file_access (p : c_path) : world_no_file.access p = false := by
  cases p <;> rfl

/-- C11 (as amended): when the path is `NULL` and none of the probed locations is
readable (`$APP_CONFIG_PATH`, the first `PATH_MAX - 1` bytes of
`$HOME/.config/<app>/config.json`, and `/etc/<app>/config.json`),
`app_config_load_file` returns `APP_SUCCESS` and leaves the configuration unchanged;
when an explicit path names a file that cannot be opened, it returns `APP_ERROR_IO`,
the configuration unchanged as well. -/
theorem C11_missing_file (w : app_world) (config : app_config) (path : String)
    (henv : ∀ p, w.getenv "APP_CONFIG_PATH" = some p → w.access_r p = false)
    (hhome : ∀ home, w.getenv "HOME" = some home →
      w.access (snprintf_path (home ++ "/.config/" ++ APP_NAME ++ "/config.json")) = false)
    (hetc : w.access_r "/etc/myapp/config.json" = false)
    (hmissing : w.fopen_r path = none) :
    app_config_load_file w config none = (APP_SUCCESS, config) ∧
    app_config_load_file w config (some path) = ( APP_ERROR_IO, config) := by
  constructor
  · rw [app_config_load_file_eq]
    simp [app_config_load_file_path, find_config_file_none w henv hhome hetc]
  · rw [app_config_load_file_eq]
    simp [app_config_load_file_path, app_world.fopen, hmissing]

/-- C11, witness: a world without any file, `HOME` and `APP_CONFIG_PATH` set. -/
theorem C11_missing_file_witness :
    app_config_load_file world_no_file app_config_create none =
      (APP_SUCCESS, app_config_create) ∧
    app_config_load_file world_no_file app_config_create (some "missing.json") =
      ( APP_ERROR_IO, app_config_create) :=
  C11_missing_file world_no_file app_config_create "missing.json"
    (fun _ _ => rfl) (fun _ _ => world_no_file_access _) rfl rfl

/-- C11, counterexample: in a world without any file, loading the explicit path
`missing.json` returns `APP_ERROR_IO`, not `APP_SUCCESS`. -/
theorem C11_counterexample :
    world_no_file.fopen_r "missing.json" = none ∧
    world_no_file.access_r "missing.json" = false ∧
    (app_config_load_file world_no_file app_config_create (some "missing.json")).1 =
      APP_ERROR_IO ∧
    (app_config_load_file world_no_file app_config_create (some "missing.json")).1 ≠
      APP_SUCCESS := by
  refine ⟨rfl, rfl, rfl, ?_⟩
  decide

/-! ## C12: the file that initialization loads -/

/-- C12, the code at the failing input: with `app -c custom.json info`, where
`custom.json` is the only readable file, `initialize_app` returns `APP_SUCCESS` with
`custom.json` stored as the configuration-file path, and the loader was called with
`NULL` and found no file to open: `custom.json` is never opened. Whatever follows `-c`,
the file opened is the one `find_config_file` finds. -/
theorem C12_config_option_not_loaded :
    world_custom_file.fopen_r "custom.json" = some "\x7b\"quiet\": true\x7d" ∧
    initialize_app world_custom_file ["app", "-c", "custom.json", "info"] =
      .returned APP_SUCCESS { app_config_create with
        program_name := some "app", command := some "info",
        config_file := some "custom.json" } ∧
    initialize_app_config_path world_custom_file ["app", "-c", "custom.json", "info"] = none ∧
    (∀ (w : app_world) (tok path : String) (rest : List String),
      initialize_app_config_path w ("app" :: tok :: path :: rest) = find_config_file w) := by
  refine ⟨by decide, by decide, by decide, ?_⟩
  intro w tok path rest
  simp [initialize_app_config_path, app_config_load_file_path]

/-! ## C13: options only, no command -/

/-- The configuration `initialize_app` hands to the parser has no command and no
command arguments. -/
theorem initial_config_no_command (w : app_world) :
    (app_config_load_env w.getenv
      (app_config_load_file w app_config_create none).2).2.command = none ∧
    (app_config_load_env w.getenv
      (app_config_load_file w app_config_create none).2).2.command_args = [] := by
  rw [app_config_load_file_config]
  unfold app_config_load_env
  cases w.getenv "NO_COLOR" <;> cases w.getenv "APP_LOG_LEVEL" <;> simp <;>
    first
      | exact ⟨rfl, rfl⟩
      | (split <;> exact ⟨rfl, rfl⟩)

/-- The call of `initialize_app` with at least one argument. -/
theorem initialize_app_cons (w : app_world) (prog a : String) (rest : List String) :
    initialize_app w (prog :: a :: rest) =
      match app_parse_args (prog :: a :: rest)
        (app_config_load_env w.getenv (app_config_load_file w app_config_create none).2).2 with
      | .exited status banner => .exited_parse status banner
      | .returned err config => .returned err config := by
  simp [initialize_app]

/-- C13: for every argument vector with at least one argument that consists of
complete recognised options only and on which initialization succeeds, `main` prints
the concise help, calls no command handler and returns `APP_ERROR_INVALID_ARG`, whose
value is 1. -/
theorem C13_no_command_invalid_arg (w : app_world) (b : app_build) (prog : String)
    (opts : List String) (hne : opts ≠ []) (hopts : options_only opts = true)
    (hparse : ∃ c, initialize_app w (prog :: opts) = .returned APP_SUCCESS c) :
    main w b (prog :: opts) = .no_command 1 ∧
    (main w b (prog :: opts)).status = APP_ERROR_INVALID_ARG.code := by
  obtain ⟨a, rest, rfl⟩ : ∃ a rest, opts = a :: rest := by
    cases opts with
    | nil => exact absurd rfl hne
    | cons a rest => exact ⟨a, rest, rfl⟩
  obtain ⟨c, hc⟩ := hparse
  have hinit := initialize_app_cons w prog a rest
  by_cases hhelp : help_requested (a :: rest) = true
  · rw [hinit] at hc
    simp [app_parse_args, hhelp] at hc
  by_cases hver : version_requested (a :: rest) = true
  · rw [hinit] at hc
    simp [app_parse_args, hhelp, hver] at hc
  have hmain : main w b (prog :: a :: rest) = .no_command 1 := by
    unfold main
    rw [hinit, app_parse_args_scan prog (a :: rest) _ (by simpa using hhelp)
      (by simpa using hver), scan_options_only (a :: rest) _ hopts]
    obtain ⟨-, hcmd, -⟩ := config_after_program_name prog (a :: rest)
      (app_config_load_env w.getenv (app_config_load_file w app_config_create none).2).2
    have hnone := (initial_config_no_command w).1
    simp only [hnone] at hcmd
    simp [hcmd, app_error.code]
  rw [hmain]
  exact ⟨rfl, rfl⟩

/-- C13, witness: `app -q --config conf.json` in a world without files. -/
theorem C13_no_command_invalid_arg_witness :
    main world_no_file build_plain ("app" :: ["-q", "--config", "conf.json"]) =
      .no_command 1 ∧
    (main world_no_file build_plain ("app" :: ["-q", "--config", "conf.json"])).status =
      APP_ERROR_INVALID_ARG.code :=
  C13_no_command_invalid_arg world_no_file build_plain "app" ["-q", "--config", "conf.json"]
    (by decide) (by decide)
    ⟨{ app_config_create with
        program_name := some "app", config_file := some "conf.json", quiet := true },
      by decide⟩

/-! ## C14: no arguments at all -/

/-- C14 (as amended): with no arguments at all (`argc = 1`) the program prints the
concise help, sets no command and ends with exit status 0, by `exit(0)` inside
`initialize_app`; the value 1 of `APP_ERROR_INVALID_ARG` is the exit status of the runs
in which initialization succeeds and leaves the command unset. -/
theorem C14_no_arguments_exit_zero (w : app_world) (b : app_build) (prog : String)
    (argv : List String) (c : app_config)
    (hinit : initialize_app w argv = .returned APP_SUCCESS c) (hcmd : c.command = none) :
    main w b [prog] = .exited_help 0 ∧
    main w b argv = .no_command APP_ERROR_INVALID_ARG.code ∧
    APP_ERROR_INVALID_ARG.code = 1 := by
  refine ⟨by simp [main, initialize_app], ?_, rfl⟩
  unfold main
  rw [hinit]
  simp [hcmd]

/-- C14, witness: `app` against `app -q`. -/
theorem C14_no_arguments_exit_zero_witness :
    main world_no_file build_plain ["app"] = .exited_help 0 ∧
    main world_no_file build_plain ["app", "-q"] = .no_command APP_ERROR_INVALID_ARG.code ∧
    APP_ERROR_INVALID_ARG.code = 1 :=
  C14_no_arguments_exit_zero world_no_file build_plain "app" ["app", "-q"]
    { app_config_create with program_name := some "app", quiet := true }
    (by decide) rfl

/-- C14, counterexample: `app` ends with exit status 0, which is not the value of
`APP_ERROR_INVALID_ARG`, the status of `app -q`. -/
theorem C14_counterexample :
    (main world_no_file build_plain ["app"]).status = 0 ∧
    (main world_no_file build_plain ["app"]).status ≠ APP_ERROR_INVALID_ARG.code ∧
    (main world_no_file build_plain ["app", "-q"]).status = APP_ERROR_INVALID_ARG.code := by
  decide

/-! ## C15: unknown commands -/

/-- C15: for every command name other than `hello`, `echo`, `info` (and `menu` when the
terminal UI is compiled in), with any arguments, `handle_command` takes none of the
command branches, writes nothing to standard output, writes the two lines of the error
message to the error stream and returns `APP_ERROR_INVALID_COMMAND`, whose value is 2.
The comparison is equality of strings, so it is exact and case-sensitive. -/
theorem C15_unknown_command (b : app_build) (config : app_config) (command : String)
    (args : List String) (hhello : command ≠ "hello") (hecho : command ≠ "echo")
    (hinfo : command ≠ "info") (hmenu : b.enable_tui = true → command ≠ "menu") :
    handle_command b config command args =
      { handler := none, err := APP_ERROR_INVALID_COMMAND, out := "",
        errout := "Unknown command: " ++ command ++ "\n" ++
          "Run \x27" ++ config.program_name.getD "(null)" ++
          " --help\x27 for available commands\n" } ∧
    APP_ERROR_INVALID_COMMAND.code = 2 := by
  refine ⟨?_, rfl⟩
  have hm : ¬ (b.enable_tui = true ∧ command = "menu") := fun h => hmenu h.1 h.2
  simp [handle_command, hhello, hecho, hinfo, hm]

/-- C15, witness: `app frobnicate`, and `Hello`, which differs from `hello` by case. -/
theorem C15_unknown_command_witness :
    (handle_command build_plain app_config_create "frobnicate" ["x"]).err =
      APP_ERROR_INVALID_COMMAND ∧
    (handle_command build_plain app_config_create "frobnicate" ["x"]).out = "" ∧
    (handle_command build_plain app_config_create "Hello" []).handler = none :=
  ⟨congrArg command_outcome.err
      (C15_unknown_command build_plain app_config_create "frobnicate" ["x"]
        (by decide) (by decide) (by decide) (by decide)).1,
    congrArg command_outcome.out
      (C15_unknown_command build_plain app_config_create "frobnicate" ["x"]
        (by decide) (by decide) (by decide) (by decide)).1,
    congrArg command_outcome.handler
      (C15_unknown_command build_plain app_config_create "Hello" []
        (by decide) (by decide) (by decide) (by decide)).1⟩

/-! ## C16: the `hello` command -/

/-- C16: for every argument sequence the `hello` branch returns `APP_SUCCESS` and
prints `Hello, `, then the first argument, or `World` when there is none, then `!` and
one newline; the arguments after the first have no influence. -/
theorem C16_hello (b : app_build) (config : app_config) (a : String) (rest : List String) :
    handle_command b config "hello" [] =
      { handler := some .hello, err := APP_SUCCESS, out := "Hello, World!\n", errout := "" } ∧
    handle_command b config "hello" (a :: rest) =
      { handler := some .hello, err := APP_SUCCESS, out := "Hello, " ++ a ++ "!\n",
        errout := "" } ∧
    handle_command b config "hello" ["Alice"] =
      { handler := some .hello, err := APP_SUCCESS, out := "Hello, Alice!\n", errout := "" } := by
  refine ⟨?_, ?_, ?_⟩ <;> simp [handle_command]

/-! ## C17: the `echo` command -/

/-- The words printed by the loop of `echo`, after any text already printed. -/
theorem echo_print_go (argc : Nat) (rest : List String) :
    ∀ (a : String) (i : Nat) (acc : String), argc = i + 1 + rest.length →
      acc ++ echo_print argc i (a :: rest) =
        String.intercalate.go (acc ++ a) " " rest ++ "\n" := by
  induction rest with
  | nil =>
    intro a i acc h
    have hi : ¬ i < argc - 1 := by simp at h; omega
    simp [echo_print, hi, String.intercalate.go, String.append_assoc]
  | cons b tl ih =>
    intro a i acc h
    have hi : i < argc - 1 := by simp at h; omega
    have := ih b (i + 1) (acc ++ a ++ " ") (by simp at h ⊢; omega)
    rw [echo_print, if_pos hi]
    simp only [String.intercalate.go]
    rw [← this]
    simp [String.append_assoc]

/-- C17: for every non-empty sequence of words the `echo` branch returns `APP_SUCCESS`
and prints the words joined by single spaces and followed by one newline; for the empty
sequence it prints nothing. -/
theorem C17_echo (b : app_build) (config : app_config) (a : String) (rest : List String) :
    handle_command b config "echo" (a :: rest) =
      { handler := some .echo, err := APP_SUCCESS,
        out := String.intercalate " " (a :: rest) ++ "\n", errout := "" } ∧
    handle_command b config "echo" [] =
      { handler := some .echo, err := APP_SUCCESS, out := "", errout := "" } ∧
    (handle_command b config "echo" ["a", "b", "c"]).out = "a b c\n" := by
  have hgo := echo_print_go (a :: rest).length rest a 0 "" (by simp; omega)
  rw [String.empty_append, String.empty_append] at hgo
  refine ⟨?_, ?_, ?_⟩
  · simp [handle_command, String.intercalate, ← hgo]
  · simp [handle_command, echo_print]
  · simp [handle_command]
    decide

/-! ## C18: exit statuses -/

/-- The option loop fails with `APP_ERROR_MISSING_ARG` or `APP_ERROR_UNKNOWN_OPTION`
only. -/
theorem scan_options_failed (toks : List String) (config : app_config) (e : app_error)
    (c : app_config) (h : scan_options toks config = .failed e c) :
    e = APP_ERROR_MISSING_ARG ∨ e = APP_ERROR_UNKNOWN_OPTION := by
  induction toks using options_only.induct generalizing config with
  | case1 => simp [scan_options] at h
  | case2 a tl hf ih =>
    rw [scan_flag_step a tl config hf] at h
    exact ih _ h
  | case3 a hf hc =>
    rw [scan_config_last a config hc] at h
    injection h with he _
    exact Or.inl he.symm
  | case4 a hf hc p tl ih =>
    rw [scan_config_step a p tl config hc] at h
    exact ih _ h
  | case5 a tl hf hc =>
    by_cases hd : first_char a = '-'
    · rw [scan_unknown_step a tl config hd (by simpa using hf) (by simpa using hc)] at h
      injection h with he _
      exact Or.inr he.symm
    · rw [scan_command_step a tl config hd] at h
      cases h

/-- A returning call of the parser returns `APP_SUCCESS`, `APP_ERROR_MISSING_ARG` or
`APP_ERROR_UNKNOWN_OPTION`; an exiting call exits with status 0. -/
theorem app_parse_args_codes (argv : List String) (config : app_config) :
    (∃ banner, app_parse_args argv config = .exited 0 banner) ∨
    (∃ c, app_parse_args argv config = .returned APP_SUCCESS c) ∨
    (∃ c, app_parse_args argv config = .returned APP_ERROR_MISSING_ARG c) ∨
    (∃ c, app_parse_args argv config = .returned APP_ERROR_UNKNOWN_OPTION c) := by
  unfold app_parse_args
  dsimp only
  split
  · exact Or.inl ⟨_, rfl⟩
  · split
    · exact Or.inl ⟨_, rfl⟩
    · split
      · rename_i err c hs
        rcases scan_options_failed _ _ _ _ hs with he | he <;> subst he
        · exact Or.inr (Or.inr (Or.inl ⟨_, rfl⟩))
        · exact Or.inr (Or.inr (Or.inr ⟨_, rfl⟩))
      · exact Or.inr (Or.inl ⟨_, rfl⟩)
      · exact Or.inr (Or.inl ⟨_, rfl⟩)

/-- The branches of `handle_command`: success, the unknown-command error, or the
`menu` branch of a build with the terminal UI. -/
theorem handle_command_codes (b : app_build) (config : app_config) (command : String)
    (args : List String) :
    (handle_command b config command args).err = APP_SUCCESS ∨
    (handle_command b config command args).err = APP_ERROR_INVALID_COMMAND ∨
    (b.enable_tui = true ∧ (handle_command b config command args).handler = some .menu) := by
  unfold handle_command
  split
  · exact Or.inl rfl
  · split
    · exact Or.inl rfl
    · split
      · exact Or.inl rfl
      · split
        · rename_i h
          exact Or.inr (Or.inr ⟨h.1, rfl⟩)
        · exact Or.inr (Or.inl rfl)

/-- C18 (as amended): the exit status is the numeric value of the code that ended the
run. A run ends in one of these ways: exit 0 after a help or version text; return of
6 (`APP_ERROR_MISSING_ARG`) or 7 (`APP_ERROR_UNKNOWN_OPTION`) when parsing fails;
return of 1 (`APP_ERROR_INVALID_ARG`) when no command is set; or return of the code of
`handle_command`, which is 0, or 2 (`APP_ERROR_INVALID_COMMAND`), or the code of the
`menu` session. The other values of the table are 3 for a configuration error, 10 for a
memory error, 11 for an I/O error and 12 for permission denied. -/
theorem C18_exit_statuses (w : app_world) (b : app_build) (argv : List String) :
    (main w b argv = .exited_help 0 ∨
      (∃ banner, main w b argv = .exited_parse 0 banner) ∨
      main w b argv = .init_failed 6 ∨
      main w b argv = .init_failed 7 ∨
      main w b argv = .no_command 1 ∨
      (∃ o, main w b argv = .dispatched o.err.code o ∧
        (o.err.code = 0 ∨ o.err.code = 2 ∨
          (b.enable_tui = true ∧ o.handler = some .menu)))) ∧
    APP_SUCCESS.code = 0 ∧ APP_ERROR_INVALID_ARG.code = 1 ∧
    APP_ERROR_INVALID_COMMAND.code = 2 ∧ APP_ERROR_CONFIG.code = 3 ∧
    APP_ERROR_MISSING_ARG.code = 6 ∧ APP_ERROR_UNKNOWN_OPTION.code = 7 ∧
    APP_ERROR_MEMORY.code = 10 ∧ app_error.code APP_ERROR_IO = 11 ∧
    APP_ERROR_PERMISSION.code = 12 := by
  refine ⟨?_, rfl, rfl, rfl, rfl, rfl, rfl, rfl, rfl, rfl⟩
  unfold main initialize_app
  by_cases hlen : argv.length = 1
  · simp [hlen]
  · simp only [hlen, if_false]
    rcases app_parse_args_codes argv
      (app_config_load_env w.getenv (app_config_load_file w app_config_create none).2).2
      with ⟨bn, h⟩ | ⟨c, h⟩ | ⟨c, h⟩ | ⟨c, h⟩
    · rw [h]
      exact Or.inr (Or.inl ⟨bn, rfl⟩)
    · rw [h]
      dsimp only
      cases hcmd : c.command with
      | none => simp [app_error.code]
      | some command =>
        simp only [ne_eq, not_true_eq_false, if_false]
        refine Or.inr (Or.inr (Or.inr (Or.inr (Or.inr ⟨_, rfl, ?_⟩))))
        rcases handle_command_codes b c command c.command_args with h1 | h1 | h1
        · rw [h1]; exact Or.inl rfl
        · rw [h1]; exact Or.inr (Or.inl rfl)
        · exact Or.inr (Or.inr h1)
    · rw [h]
      simp [app_error.code]
    · rw [h]
      simp [app_error.code]

/-- C18, counterexample: `app -c` ends with exit status 6 and `app --bogus` with 7,
neither of which is in the table 0, 1, 2, 3, 10, 11, 12; and the value of
`APP_ERROR_INVALID_ARG`, the status of `app -q`, is 1, not 2. -/
theorem C18_counterexample :
    (main world_no_file build_plain ["app", "-c"]).status = 6 ∧
    (main world_no_file build_plain ["app", "-c"]).status ∉ [0, 1, 2, 3, 10, 11, 12] ∧
    (main world_no_file build_plain ["app", "--bogus"]).status = 7 ∧
    (main world_no_file build_plain ["app", "--bogus"]).status ∉ [0, 1, 2, 3, 10, 11, 12] ∧
    (main world_no_file build_plain ["app", "-q"]).status = 1 ∧
    APP_ERROR_INVALID_ARG.code ≠ 2 := by
  decide

/-! ## C19: error messages -/

theorem app_error_mem_all (e : app_error) : e ∈ app_error.all := by
  cases e <;> decide

/-- Every enumerator other than `APP_ERROR_FEATURE_BASE` has a message of its own:
it is not the fallback, and two of these enumerators never share a message. -/
theorem app_strerror_dedicated :
    (∀ e ∈ app_error.all, e ≠ APP_ERROR_FEATURE_BASE →
      app_strerror (e.code : Int) ≠ "Unknown error") ∧
    (∀ e1 ∈ app_error.all, ∀ e2 ∈ app_error.all,
      e1 ≠ APP_ERROR_FEATURE_BASE → e2 ≠ APP_ERROR_FEATURE_BASE →
      app_strerror (e1.code : Int) = app_strerror (e2.code : Int) → e1 = e2) := by
  constructor <;> decide

/-- C19, the code at the failing input: `APP_ERROR_FEATURE_BASE`, whose value is 30,
has no `case` in the `switch`, so `app_strerror` gives it the fallback
`Unknown error`; every other enumerator has a message of its own, different from the
fallback and from the message of any other enumerator, and `APP_SUCCESS` gives
`Success`. -/
theorem C19_feature_base_unknown_error :
    APP_ERROR_FEATURE_BASE.code = 30 ∧
    app_strerror (APP_ERROR_FEATURE_BASE.code : Int) = "Unknown error" ∧
    app_strerror (APP_SUCCESS.code : Int) = "Success" ∧
    (∀ e : app_error, e ≠ APP_ERROR_FEATURE_BASE →
      app_strerror (e.code : Int) ≠ "Unknown error") ∧
    (∀ e1 e2 : app_error, e1 ≠ APP_ERROR_FEATURE_BASE → e2 ≠ APP_ERROR_FEATURE_BASE →
      app_strerror (e1.code : Int) = app_strerror (e2.code : Int) → e1 = e2) := by
  refine ⟨rfl, by decide, by decide, ?_, ?_⟩
  · intro e
    exact app_strerror_dedicated.1 e (app_error_mem_all e)
  · intro e1 e2
    exact app_strerror_dedicated.2 e1 (app_error_mem_all e1) e2 (app_error_mem_all e2)

/-! ## C20: the size ceiling of the standard-input reader -/

/-- A request the stream can satisfy is delivered whole and sets no indicator. -/
theorem fread_full (stream : input_stream) (k : Nat) (hk : k ≤ stream.data.length) :
    (fread stream k).1.length = k ∧
    (fread stream k).2.data.length = stream.data.length - k ∧
    (fread stream k).2.eof = stream.eof ∧ (fread stream k).2.err = stream.err := by
  unfold fread
  by_cases h0 : k = 0
  · simp [h0]
  · simp [h0, hk]

/-- On a stream of at least `INPUT_MAX_SIZE - 1` bytes every iteration that starts
within the invariant goes round the loop again, within the invariant. -/
theorem read_iteration_inv (alloc_ok : Nat → Bool) (hall : ∀ k, alloc_ok k = true)
    (n : Nat) (hn : INPUT_MAX_SIZE - 1 ≤ n) (s : read_state) (h : read_inv n s) :
    ∃ s2, read_iteration alloc_ok s = .next s2 ∧ read_inv n s2 := by
  obtain ⟨hsum, hcap, hmax, heof, herr⟩ := h
  have hlt : ¬ s.buffer.length ≥ INPUT_MAX_SIZE := by omega
  -- the capacity after the growth branch
  obtain ⟨cap, hgrown, hcap1, hcap2⟩ : ∃ cap,
      (if s.capacity - s.buffer.length - 1 < INPUT_BUFFER_READ_CHUNK_SIZE then
        (if alloc_ok (if s.capacity * 2 > INPUT_MAX_SIZE then INPUT_MAX_SIZE
            else s.capacity * 2) = true then
          some (if s.capacity * 2 > INPUT_MAX_SIZE then INPUT_MAX_SIZE else s.capacity * 2)
        else none)
      else some s.capacity) = some cap ∧ s.capacity ≤ cap ∧ cap ≤ INPUT_MAX_SIZE := by
    by_cases hrem : s.capacity - s.buffer.length - 1 < INPUT_BUFFER_READ_CHUNK_SIZE
    · rw [if_pos hrem, if_pos (hall _)]
      refine ⟨_, rfl, ?_, ?_⟩ <;> split <;> omega
    · rw [if_neg hrem]
      exact ⟨_, rfl, le_refl _, hmax⟩
  -- the request fits into what the stream still holds
  have hfit : (if cap - s.buffer.length - 1 < INPUT_BUFFER_READ_CHUNK_SIZE then
      cap - s.buffer.length - 1 else INPUT_BUFFER_READ_CHUNK_SIZE) ≤ s.stream.data.length := by
    split <;> omega
  have hreq : (if cap - s.buffer.length - 1 < INPUT_BUFFER_READ_CHUNK_SIZE then
      cap - s.buffer.length - 1 else INPUT_BUFFER_READ_CHUNK_SIZE) ≤
      cap - s.buffer.length - 1 := by
    split <;> omega
  unfold read_iteration
  simp only [hlt, if_false, hgrown]
  generalize (if cap - s.buffer.length - 1 < INPUT_BUFFER_READ_CHUNK_SIZE then
      cap - s.buffer.length - 1 else INPUT_BUFFER_READ_CHUNK_SIZE) = req at hfit hreq ⊢
  obtain ⟨hlen, hdata, hfe, hfr⟩ := fread_full s.stream req hfit
  rw [heof] at hfe
  rw [herr] at hfr
  refine ⟨{ capacity := cap, buffer := s.buffer ++ (fread s.stream req).1,
            stream := (fread s.stream req).2 }, ?_, ?_⟩
  · by_cases hz : (fread s.stream req).1.length = 0
    · simp [hz, hfe, hfr]
    · simp [hz]
  · refine ⟨?_, ?_, hcap2, hfe, hfr⟩
    · simp only [List.length_append, hlen, hdata]
      omega
    · simp only [List.length_append, hlen]
      omega

/-- On a stream of at least `INPUT_MAX_SIZE - 1` bytes the loop started within the
invariant is still running after any number of iterations. -/
theorem read_loop_runs_on (alloc_ok : Nat → Bool) (hall : ∀ k, alloc_ok k = true)
    (n : Nat) (hn : INPUT_MAX_SIZE - 1 ≤ n) (fuel : Nat) :
    ∀ s, read_inv n s → read_loop alloc_ok fuel s = none := by
  induction fuel with
  | zero => intro s _; rfl
  | succ k ih =>
    intro s h
    obtain ⟨s2, hstep, hinv⟩ := read_iteration_inv alloc_ok hall n hn s h
    simp only [read_loop, hstep]
    exact ih s2 hinv

/-- The function never returns on an error-free stream of at least `INPUT_MAX_SIZE - 1`
bytes when every allocation succeeds. -/
theorem stdin_never_returns (alloc_ok : Nat → Bool) (hall : ∀ k, alloc_ok k = true)
    (st_size : Option Nat) (data : List UInt8) (hn : INPUT_MAX_SIZE - 1 ≤ data.length)
    (fuel : Nat) :
    app_read_input_from_stdin alloc_ok st_size (fresh_stream data) fuel = none := by
  unfold app_read_input_from_stdin
  have hcap : ∀ cap : Nat, 1 ≤ cap → cap ≤ INPUT_MAX_SIZE →
      (if cap = 0 ∨ cap > INPUT_MAX_SIZE then some (read_result.null .unchanged)
        else if alloc_ok cap = false then some (read_result.null .ENOMEM)
        else read_loop alloc_ok fuel
          { capacity := cap, buffer := [], stream := fresh_stream data }) = none := by
    intro cap h1 h2
    have hne : ¬ (cap = 0 ∨ cap > INPUT_MAX_SIZE) := by omega
    rw [if_neg hne]
    simp only [hall, Bool.true_eq_false, if_false]
    apply read_loop_runs_on alloc_ok hall data.length hn
    exact ⟨by simp [fresh_stream], by simpa using h1, h2, rfl, rfl⟩
  dsimp only
  apply hcap
  · cases st_size with
    | none => simp [INPUT_BUFFER_INITIAL_SIZE]
    | some size =>
      dsimp only
      unfold INPUT_MAX_SIZE INPUT_BUFFER_INITIAL_SIZE
      split_ifs <;> omega
  · cases st_size with
    | none => simp [INPUT_BUFFER_INITIAL_SIZE, INPUT_MAX_SIZE]
    | some size =>
      dsimp only
      unfold INPUT_MAX_SIZE INPUT_BUFFER_INITIAL_SIZE
      split_ifs <;> omega

/-- A short stream is returned whole: two iterations read the three bytes and meet
the end of the stream. -/
theorem stdin_short_stream_example :
    app_read_input_from_stdin (fun _ => true) none (fresh_stream [104, 105, 10]) 2 =
      some (.ok [104, 105, 10]) := by
  decide

/-- C20, the code at the failing input: on a stream of exactly `INPUT_MAX_SIZE` bytes,
and on one of `INPUT_MAX_SIZE + 1` bytes, with every allocation succeeding, the call
is still in its loop after any number of iterations: it returns neither the buffer nor
`nullptr`. The buffer never holds more than `INPUT_MAX_SIZE - 1` bytes, and once it
holds that many each iteration asks `fread` for 0 bytes. -/
theorem C20_stdin_never_returns_at_ceiling (st_size : Option Nat) (fuel : Nat) :
    app_read_input_from_stdin (fun _ => true) st_size
      (fresh_stream (List.replicate INPUT_MAX_SIZE 0)) fuel = none ∧
    app_read_input_from_stdin (fun _ => true) st_size
      (fresh_stream (List.replicate (INPUT_MAX_SIZE + 1) 0)) fuel = none := by
  constructor
  · exact stdin_never_returns _ (fun _ => rfl) st_size _
      (by rw [List.length_replicate]; omega) fuel
  · exact stdin_never_returns _ (fun _ => rfl) st_size _
      (by rw [List.length_replicate]; omega) fuel

/-! ## C23: quiet mode and error output -/

/-- C23: for every text and every configuration, `app_output` writes nothing at all
when quiet mode is on and `is_error` is false, and when `is_error` is true it writes
the payload to the error stream whatever the quiet flag is: the text and a newline,
wrapped in the JSON object when JSON output is on. -/
theorem C23_quiet_never_hides_errors (text : String) (config : app_config) :
    (config.quiet = true →
      app_output (some text) config false = { out := "", errout := "" }) ∧
    app_output (some text) config true =
      { out := "",
        errout := if config.json_output = true then
            "\x7b\"message\":\"" ++ text ++ "\"\x7d\n"
          else text ++ "\n" } ∧
    app_output (some text) config true =
      app_output (some text) { config with quiet := false } true ∧
    (app_output (some text) config true).errout ≠ "" := by
  refine ⟨?_, ?_, ?_, ?_⟩
  · intro hq
    simp [app_output, hq]
  · simp [app_output]
  · simp [app_output]
  · have hne : ∀ a b : String, b.length ≠ 0 → a ++ b ≠ "" := by
      intro a b hb h
      have := congrArg String.length h
      simp at this
      exact hb this.2
    simp only [app_output]
    by_cases hj : config.json_output = true
    · simp only [hj]
      simp only [Bool.true_eq_false, and_false, if_false, if_true]
      exact hne _ _ (by decide)
    · simp only [hj]
      simp only [Bool.true_eq_false, and_false, if_false, if_true]
      exact hne _ _ (by decide)

/-! ## C24: the line written -/

/-- C24 (as amended): a text that `app_output` does not suppress is written once,
followed by one newline, to the error stream when `is_error` is true and to standard
output otherwise; with JSON output on, the text is wrapped as `{"message":"<text>"}`,
without a blank after the colon and without escaping; the plain-output flag has no
influence, so JSON output wins when both flags are set. -/
theorem C24_line_written (text : String) (config : app_config) (is_error : Bool)
    (hshown : ¬ (config.quiet = true ∧ is_error = false)) :
    (config.json_output = true →
      app_output (some text) config is_error =
        if is_error = true then
          { out := "", errout := "\x7b\"message\":\"" ++ text ++ "\"\x7d\n" }
        else { out := "\x7b\"message\":\"" ++ text ++ "\"\x7d\n", errout := "" }) ∧
    (config.json_output = false →
      app_output (some text) config is_error =
        if is_error = true then { out := "", errout := text ++ "\n" }
        else { out := text ++ "\n", errout := "" }) ∧
    (∀ plain : Bool, app_output (some text) { config with plain_output := plain } is_error =
      app_output (some text) config is_error) := by
  refine ⟨?_, ?_, ?_⟩
  · intro hj
    simp [app_output, hshown, hj]
  · intro hj
    simp [app_output, hshown, hj]
  · intro plain
    simp [app_output]

/-- C24, witness: `hi` with both `--json` and `--plain` set goes to standard output
as `{"message":"hi"}` and a newline. -/
theorem C24_line_written_witness :
    app_output (some "hi")
        { app_config_create with json_output := true, plain_output := true } false =
      { out := "\x7b\"message\":\"hi\"\x7d\n", errout := "" } :=
  ((C24_line_written "hi"
      { app_config_create with json_output := true, plain_output := true } false
      (by decide)).1 rfl).trans (by decide)

/-- C24, counterexample: with JSON output on, `hi` is written as `{"message":"hi"}`,
which is not the text `{"message": "hi"}` with a blank after the colon. -/
theorem C24_counterexample :
    (app_output (some "hi") { app_config_create with json_output := true } false).out =
      "\x7b\"message\":\"hi\"\x7d\n" ∧
    (app_output (some "hi") { app_config_create with json_output := true } false).out ≠
      "\x7b\"message\": \"hi\"\x7d\n" := by
  decide

/-! ## C27: version -/

theorem version_requested_iff (toks : List String) :
    version_requested toks = true ↔ ∃ a ∈ toks, a = "--version" := by
  induction toks with
  | nil => simp [version_requested]
  | cons a tl ih =>
    by_cases h : a = "--version"
    · simp [version_requested, h]
    · rw [show version_requested (a :: tl) = version_requested tl by
        simp [version_requested, h], ih]
      constructor
      · rintro ⟨b, hb, hbe⟩
        exact ⟨b, List.mem_cons_of_mem _ hb, hbe⟩
      · rintro ⟨b, hb, hbe⟩
        rcases List.mem_cons.1 hb with h1 | h1
        · exact absurd (h1 ▸ hbe) h
        · exact ⟨b, h1, hbe⟩

/-- C27: whenever `--version` is among the tokens after the program name,
`app_parse_args` ends the process with exit code 0 and validates no option: it prints
the name and version when no help token is present, and the usage text when one is. -/
theorem C27_version_exits_zero (argv : List String) (config : app_config)
    (h : ∃ a ∈ argv.tail, a = "--version") :
    app_parse_args argv config =
      .exited 0 (if help_requested argv.tail = true then .verbose_usage else .version_info) := by
  have hv : version_requested argv.tail = true := (version_requested_iff argv.tail).2 h
  by_cases hh : help_requested argv.tail = true
  · simp [app_parse_args, hh]
  · simp [app_parse_args, hh, hv]

/-- C27, witness: `app --bogus -c --version` has no help token, an unknown option and
a trailing `-c`, and exits 0 with the version text. -/
theorem C27_version_exits_zero_witness :
    help_requested (["app", "--bogus", "--version", "-c"] : List String).tail = false ∧
    app_parse_args ["app", "--bogus", "--version", "-c"] app_config_create =
      .exited 0 .version_info :=
  ⟨by decide,
    (C27_version_exits_zero ["app", "--bogus", "--version", "-c"] app_config_create
      ⟨"--version", by decide, rfl⟩).trans (by decide)⟩

/-! ## C25: the configuration-file path -/

/-- C25 (as amended): the configuration-file path is absent on a fresh configuration
and the setter stores every path that is not `NULL` as it is given, the empty string
included; `app_parse_args` hands the token after `-c` / `--config` to the setter
unchecked, so after `app -c "" info` the path is present and empty. -/
theorem C25_config_file_as_given (config : app_config) (path : String)
    (hreach : config_reachable config) :
    app_config_create.config_file = none ∧
    config_reachable (app_config_set_config_file config (some path)) ∧
    (app_config_set_config_file config (some path)).config_file = some path ∧
    (app_config_set_config_file config none).config_file = config.config_file ∧
    (∀ prog rest, help_requested ("-c" :: path :: rest) = false →
      version_requested ("-c" :: path :: rest) = false →
      app_parse_args (prog :: "-c" :: path :: rest) config =
        app_parse_args (prog :: rest)
          (app_config_set_config_file
            (app_config_set_program_name config (some prog)) (some path))) := by
  refine ⟨rfl, config_reachable.set_config_file config (some path) hreach, rfl, rfl, ?_⟩
  intro prog rest hhelp hver
  have hh : help_requested rest = false := by
    by_cases h3 : path = "-h" ∨ path = "--help"
    · simp [help_requested, h3] at hhelp
    · simpa [help_requested, h3] using hhelp
  have hv : version_requested rest = false := by
    by_cases h3 : path = "--version"
    · simp [version_requested, h3] at hver
    · simpa [version_requested, h3] using hver
  rw [app_parse_args_scan prog _ config hhelp hver,
    scan_config_step "-c" path rest _ (by decide),
    app_parse_args_scan prog rest _ hh hv,
    set_program_name_idem _ prog (some path) (by simp [app_config_set_program_name])]

/-- C25, witness: the empty path on a fresh configuration. -/
theorem C25_config_file_as_given_witness :
    (app_config_set_config_file app_config_create (some "")).config_file = some "" :=
  (C25_config_file_as_given app_config_create "" config_reachable.create).2.2.1

/-- C25, counterexample: `app -c "" info` on a fresh configuration returns a
configuration, reachable by definition, whose file path is present and is the empty
string. -/
theorem C25_counterexample :
    ∃ c, config_reachable c ∧
      app_parse_args ["app", "-c", "", "info"] app_config_create = .returned APP_SUCCESS c ∧
      c.config_file = some "" :=
  ⟨{ app_config_create with
      program_name := some "app", command := some "info", config_file := some "" },
    config_reachable.parse_args ["app", "-c", "", "info"] app_config_create APP_SUCCESS _
      config_reachable.create (by decide),
    by decide, rfl⟩

/-! ## C26: the command arguments and their ceiling -/

/-- A returning call of the parser keeps the number of command arguments within
`MAX_COMMAND_ARGS`. -/
theorem app_parse_args_count (argv : List String) (c : app_config) (e : app_error)
    (c2 : app_config) (h : app_parse_args argv c = .returned e c2)
    (hc : c.command_args.length ≤ MAX_COMMAND_ARGS) :
    c2.command_args.length ≤ MAX_COMMAND_ARGS := by
  unfold app_parse_args at h
  dsimp only at h
  have hargs := (config_extends_scan argv.tail
    (app_config_set_program_name c argv.head?)).2.2.1
  have hname : (app_config_set_program_name c argv.head?).command_args = c.command_args := by
    cases argv.head? <;> rfl
  unfold config_after at hargs
  split at h
  · cases h
  · split at h
    · cases h
    · split at h
      · rename_i err cfg hs
        rw [hs] at hargs
        injection h with _ h2
        subst h2
        rw [hargs, hname]
        exact hc
      · rename_i cfg hs
        rw [hs] at hargs
        injection h with _ h2
        subst h2
        rw [hargs, hname]
        exact hc
      · rename_i cfg command rest hs
        rw [hs] at hargs
        injection h with _ h2
        subst h2
        rw [add_command_args_eq]
        simp only [app_config_set_command, List.length_append, List.length_take]
        dsimp only at hargs
        rw [hargs, hname]
        omega

/-- Every reachable configuration holds at most `MAX_COMMAND_ARGS` command
arguments. -/
theorem config_reachable_count (c : app_config) (h : config_reachable c) :
    c.command_args.length ≤ MAX_COMMAND_ARGS := by
  induction h with
  | create => simp [app_config_create]
  | set_debug c v _ ih => exact ih
  | set_quiet c v _ ih => exact ih
  | set_verbose c v _ ih => exact ih
  | set_json_output c v _ ih => exact ih
  | set_plain_output c v _ ih => exact ih
  | set_no_color c v _ ih => exact ih
  | set_program_name c name _ ih => cases name <;> exact ih
  | set_command c command _ ih => cases command <;> exact ih
  | set_config_file c path _ ih => cases path <;> exact ih
  | add_command_arg c arg _ ih =>
    cases arg with
    | none => exact ih
    | some a =>
      simp only [app_config_add_command_arg]
      split
      · simp only [List.length_append, List.length_singleton]
        omega
      · exact ih
  | load_file w c path _ ih =>
    rw [app_config_load_file_config]
    exact ih
  | load_env getenv c _ ih =>
    have hsame : (app_config_load_env getenv c).2.command_args = c.command_args := by
      unfold app_config_load_env
      cases getenv "NO_COLOR" <;> cases getenv "APP_LOG_LEVEL" <;> simp <;>
        first
          | rfl
          | (split <;> rfl)
    rw [hsame]
    exact ih
  | parse_args argv c e c2 _ hp ih => exact app_parse_args_count argv c e c2 hp ih

/-- The last loop of the parser stays within the reachable configurations. -/
theorem add_command_args_reachable (rest : List String) (c : app_config)
    (h : config_reachable c) : config_reachable (add_command_args rest c) := by
  induction rest generalizing c with
  | nil => exact h
  | cons a tl ih => exact ih _ (config_reachable.add_command_arg c (some a) h)

/-- C26: the command arguments are a sequence in insertion order with the ceiling
`MAX_COMMAND_ARGS` = 100. On a configuration with fewer than 100 arguments
`app_config_add_command_arg` appends the argument at the end and keeps the earlier
ones; on one with 100 it changes nothing. In every reachable configuration the count
is between 0 and 100, also after one more call, and `app_config_get_command_args`
reports the stored count together with the stored arguments. -/
theorem C26_command_args_ceiling (config : app_config) (arg : String)
    (hreach : config_reachable config) :
    MAX_COMMAND_ARGS = 100 ∧
    (config.command_args.length < 100 →
      app_config_add_command_arg config (some arg) =
        { config with command_args := config.command_args ++ [arg] }) ∧
    (config.command_args.length = 100 →
      app_config_add_command_arg config (some arg) = config) ∧
    config.command_args.length ≤ 100 ∧
    (app_config_add_command_arg config (some arg)).command_args.length ≤ 100 ∧
    (app_config_get_command_args config).1 = config.command_args.length ∧
    (app_config_get_command_args config).2 = config.command_args := by
  have hle := config_reachable_count config hreach
  have hle2 := config_reachable_count _
    (config_reachable.add_command_arg config (some arg) hreach)
  refine ⟨rfl, ?_, ?_, hle, hle2, rfl, rfl⟩
  · intro hlt
    simp [app_config_add_command_arg, MAX_COMMAND_ARGS, hlt]
  · intro heq
    simp [app_config_add_command_arg, MAX_COMMAND_ARGS, heq]

/-- C26, witness: `app echo` followed by 101 words leaves exactly the first 100 as
command arguments, and one more call changes nothing. -/
theorem C26_command_args_ceiling_witness :
    (add_command_args (List.replicate 101 "x") app_config_create).command_args.length ≤ 100 ∧
    (app_config_add_command_arg
      (add_command_args (List.replicate 101 "x") app_config_create)
      (some "y")).command_args.length ≤ 100 :=
  ⟨(C26_command_args_ceiling (add_command_args (List.replicate 101 "x") app_config_create)
      "y" (add_command_args_reachable _ _ config_reachable.create)).2.2.2.1,
    (C26_command_args_ceiling (add_command_args (List.replicate 101 "x") app_config_create)
      "y" (add_command_args_reachable _ _ config_reachable.create)).2.2.2.2.1⟩

/-! ## C21: the size ceiling of the file reader -/

/-- A stream that holds exactly the bytes asked for delivers them all. -/
theorem fread_all (data : List UInt8) :
    (fread (fresh_stream data) data.length).1 = data := by
  unfold fread
  by_cases h0 : data.length = 0
  · simp [h0, List.length_eq_zero.1 h0]
  · simp [h0, fresh_stream]

/-- C21: a file that opens, whose size `fstat` reports correctly and whose bytes can
all be read, is returned whole when it holds exactly `INPUT_MAX_SIZE` bytes (any
number up to that, in fact), the allocation succeeding; a file whose reported size
exceeds `INPUT_MAX_SIZE` is rejected with `nullptr` and `E2BIG` whatever its stream
holds and whatever the allocator does, so before any byte is read. -/
theorem C21_file_ceiling (alloc_ok : Nat → Bool) (fopen_file : String → Option input_file)
    (name : String) (data : List UInt8) (big : input_file) (size : Nat)
    (hopen : fopen_file name = some { st_size := some data.length, stream := fresh_stream data })
    (halloc : alloc_ok (data.length + 1) = true)
    (hlen : data.length ≤ INPUT_MAX_SIZE)
    (hbig : big.st_size = some size) (hsize : INPUT_MAX_SIZE + 1 ≤ size) :
    app_read_input_from_file alloc_ok fopen_file (some name) = .ok data ∧
    app_read_input_from_file alloc_ok (fun _ => some big) (some name) = .null .E2BIG := by
  constructor
  · have hnot : ¬ data.length > INPUT_MAX_SIZE := by omega
    simp [app_read_input_from_file, hopen, hnot, halloc, fread_all]
  · have hgt : size > INPUT_MAX_SIZE := by omega
    simp [app_read_input_from_file, hbig, hgt]

/-- C21, witness: a file of exactly `INPUT_MAX_SIZE` bytes, and a file reported one
byte larger whose stream cannot even be read. -/
theorem C21_file_ceiling_witness :
    app_read_input_from_file (fun _ => true)
        (fun _ => some { st_size := some (List.replicate INPUT_MAX_SIZE (0 : UInt8)).length,
                         stream := fresh_stream (List.replicate INPUT_MAX_SIZE 0) })
        (some "in.bin") = .ok (List.replicate INPUT_MAX_SIZE 0) ∧
    app_read_input_from_file (fun _ => true)
        (fun _ => some { st_size := some (INPUT_MAX_SIZE + 1),
                         stream := { data := [], broken := true, eof := false, err := false } })
        (some "in.bin") = .null .E2BIG :=
  C21_file_ceiling (fun _ => true)
    (fun _ => some { st_size := some (List.replicate INPUT_MAX_SIZE (0 : UInt8)).length,
                     stream := fresh_stream (List.replicate INPUT_MAX_SIZE 0) })
    "in.bin" (List.replicate INPUT_MAX_SIZE 0)
    { st_size := some (INPUT_MAX_SIZE + 1),
      stream := { data := [], broken := true, eof := false, err := false } }
    (INPUT_MAX_SIZE + 1) rfl rfl
    (by rw [List.length_replicate]) rfl (le_refl _)

/-! ## C22: what the standard-input reader returns -/

/-- A request of at least one byte that the stream can satisfy: the first bytes are
delivered and no indicator changes. -/
theorem fread_fit (stream : input_stream) (k : Nat) (h0 : k ≠ 0)
    (hk : k ≤ stream.data.length) :
    (fread stream k).1 = stream.data.take k ∧
    (fread stream k).2.data = stream.data.drop k ∧
    (fread stream k).2.eof = stream.eof ∧ (fread stream k).2.err = stream.err ∧
    (fread stream k).2.broken = stream.broken := by
  simp [fread, h0, hk]

/-- A request the stream cannot satisfy: what is left is delivered and the stream
reports its end, or its error when it is broken. -/
theorem fread_short (stream : input_stream) (k : Nat) (h0 : k ≠ 0)
    (hk : ¬ k ≤ stream.data.length) :
    (fread stream k).1 = stream.data ∧
    (fread stream k).2.data = [] ∧
    (fread stream k).2.eof = (stream.eof || !stream.broken) ∧
    (fread stream k).2.err = (stream.err || stream.broken) ∧
    (fread stream k).2.broken = stream.broken := by
  simp [fread, h0, hk]

/-- On an error-free stream of at most `INPUT_MAX_SIZE - 2` bytes, an iteration that
starts within the invariant either leaves the loop with the whole stream in the
buffer, or goes round again within the invariant, having met the end of the stream or
taken at least one byte from it. -/
theorem read_iteration_short (alloc_ok : Nat → Bool) (hall : ∀ k, alloc_ok k = true)
    (data : List UInt8) (hshort : data.length + 2 ≤ INPUT_MAX_SIZE) (s : read_state)
    (h : read_inv_data data s) :
    (∃ s2, read_iteration alloc_ok s = .stop s2 ∧ s2.buffer = data) ∨
    (∃ s2, read_iteration alloc_ok s = .next s2 ∧ read_inv_data data s2 ∧
      s.stream.eof = false ∧
      (s2.stream.eof = true ∨ s2.stream.data.length < s.stream.data.length)) := by
  obtain ⟨hdata, hcap, hmax, herr, hbroken, heof⟩ := h
  have hsum : s.buffer.length + s.stream.data.length = data.length := by
    rw [← hdata, List.length_append]
  have hlt : ¬ s.buffer.length ≥ INPUT_MAX_SIZE := by omega
  obtain ⟨cap, hgrown, hcap1, hcap2, hroom⟩ : ∃ cap,
      (if s.capacity - s.buffer.length - 1 < INPUT_BUFFER_READ_CHUNK_SIZE then
        (if alloc_ok (if s.capacity * 2 > INPUT_MAX_SIZE then INPUT_MAX_SIZE
            else s.capacity * 2) = true then
          some (if s.capacity * 2 > INPUT_MAX_SIZE then INPUT_MAX_SIZE else s.capacity * 2)
        else none)
      else some s.capacity) = some cap ∧ s.capacity ≤ cap ∧ cap ≤ INPUT_MAX_SIZE ∧
      s.buffer.length + 2 ≤ cap := by
    by_cases hrem : s.capacity - s.buffer.length - 1 < INPUT_BUFFER_READ_CHUNK_SIZE
    · rw [if_pos hrem, if_pos (hall _)]
      refine ⟨_, rfl, ?_, ?_, ?_⟩ <;> split <;> omega
    · rw [if_neg hrem]
      have hchunk : INPUT_BUFFER_READ_CHUNK_SIZE = 8192 := rfl
      exact ⟨_, rfl, le_refl _, hmax, by omega⟩
  have hreq1 : 1 ≤ (if cap - s.buffer.length - 1 < INPUT_BUFFER_READ_CHUNK_SIZE then
      cap - s.buffer.length - 1 else INPUT_BUFFER_READ_CHUNK_SIZE) := by
    have hchunk : INPUT_BUFFER_READ_CHUNK_SIZE = 8192 := rfl
    split <;> omega
  have hreq2 : (if cap - s.buffer.length - 1 < INPUT_BUFFER_READ_CHUNK_SIZE then
      cap - s.buffer.length - 1 else INPUT_BUFFER_READ_CHUNK_SIZE) ≤
      cap - s.buffer.length - 1 := by
    split <;> omega
  unfold read_iteration
  simp only [hlt, if_false, hgrown]
  generalize (if cap - s.buffer.length - 1 < INPUT_BUFFER_READ_CHUNK_SIZE then
      cap - s.buffer.length - 1 else INPUT_BUFFER_READ_CHUNK_SIZE) = req at hreq1 hreq2 ⊢
  have hreq0 : req ≠ 0 := by omega
  by_cases hfit : req ≤ s.stream.data.length
  · -- the request is delivered whole
    obtain ⟨h1, h2, h3, h4, h5⟩ := fread_fit s.stream req hreq0 hfit
    have hfe : s.stream.eof = false := by
      cases he : s.stream.eof with
      | false => rfl
      | true =>
        have hnil := heof he
        rw [hnil] at hfit
        simp at hfit
        omega
    have hlen : (fread s.stream req).1.length = req := by
      rw [h1, List.length_take]
      omega
    have hz : ¬ (fread s.stream req).1.length = 0 := by omega
    rw [if_neg hz]
    refine Or.inr ⟨_, rfl, ⟨?_, ?_, hcap2, ?_, ?_, ?_⟩, hfe, Or.inr ?_⟩
    · rw [h1, h2, List.append_assoc, List.take_append_drop]
      exact hdata
    · simp only [List.length_append, hlen]
      omega
    · rw [h4]
      exact herr
    · rw [h5]
      exact hbroken
    · intro he
      rw [h3, hfe] at he
      cases he
    · rw [h2, List.length_drop]
      omega
  · -- the stream ends within the request
    obtain ⟨h1, h2, h3, h4, h5⟩ := fread_short s.stream req hreq0 hfit
    have hfe2 : (fread s.stream req).2.eof = true := by
      rw [h3, hbroken]
      simp
    have hfr2 : (fread s.stream req).2.err = false := by
      rw [h4, herr, hbroken]
      rfl
    by_cases hempty : s.stream.data.length = 0
    · have hnil : s.stream.data = [] := List.length_eq_zero.1 hempty
      have hz : (fread s.stream req).1.length = 0 := by rw [h1]; exact hempty
      rw [if_pos hz, if_pos hfe2]
      refine Or.inl ⟨_, rfl, ?_⟩
      rw [← hdata, hnil, List.append_nil]
    · have hfe : s.stream.eof = false := by
        cases he : s.stream.eof with
        | false => rfl
        | true => exact absurd (by rw [heof he]; rfl) hempty
      have hz : ¬ (fread s.stream req).1.length = 0 := by rw [h1]; exact hempty
      rw [if_neg hz]
      refine Or.inr ⟨_, rfl, ⟨?_, ?_, hcap2, hfr2, ?_, ?_⟩, hfe, Or.inl hfe2⟩
      · rw [h1, h2, List.append_nil]
        exact hdata
      · simp only [List.length_append, h1]
        omega
      · rw [h5]
        exact hbroken
      · intro _
        exact h2

/-- On an error-free stream of at most `INPUT_MAX_SIZE - 2` bytes the loop returns
the whole stream once the fuel covers the bytes left and two more iterations. -/
theorem read_loop_short (alloc_ok : Nat → Bool) (hall : ∀ k, alloc_ok k = true)
    (data : List UInt8) (hshort : data.length + 2 ≤ INPUT_MAX_SIZE) (fuel : Nat) :
    ∀ s, read_inv_data data s →
      (if s.stream.eof = true then 1 else s.stream.data.length + 2) ≤ fuel →
      read_loop alloc_ok fuel s = some (.ok data) := by
  induction fuel with
  | zero =>
    intro s _ hb
    split at hb <;> omega
  | succ k ih =>
    intro s h hb
    rcases read_iteration_short alloc_ok hall data hshort s h with
      ⟨s2, hstep, hbuf⟩ | ⟨s2, hstep, hinv, hfe, hprog⟩
    · simp only [read_loop, hstep, hbuf]
    · simp only [read_loop, hstep]
      apply ih s2 hinv
      rw [if_neg (by rw [hfe]; decide)] at hb
      rcases hprog with he | hl
      · rw [if_pos he]
        omega
      · split <;> omega

/-- The function returns an error-free stream of at most `INPUT_MAX_SIZE - 2` bytes
whole, whatever the initial capacity, when every allocation succeeds and the fuel
covers the length of the stream and two more iterations. -/
theorem stdin_returns_short (alloc_ok : Nat → Bool) (hall : ∀ k, alloc_ok k = true)
    (st_size : Option Nat) (data : List UInt8) (hshort : data.length + 2 ≤ INPUT_MAX_SIZE)
    (fuel : Nat) (hfuel : data.length + 2 ≤ fuel) :
    app_read_input_from_stdin alloc_ok st_size (fresh_stream data) fuel = some (.ok data) := by
  unfold app_read_input_from_stdin
  have hcap : ∀ cap : Nat, 1 ≤ cap → cap ≤ INPUT_MAX_SIZE →
      (if cap = 0 ∨ cap > INPUT_MAX_SIZE then some (read_result.null .unchanged)
        else if alloc_ok cap = false then some (read_result.null .ENOMEM)
        else read_loop alloc_ok fuel
          { capacity := cap, buffer := [], stream := fresh_stream data }) =
        some (.ok data) := by
    intro cap h1 h2
    have hne : ¬ (cap = 0 ∨ cap > INPUT_MAX_SIZE) := by omega
    rw [if_neg hne]
    simp only [hall, Bool.true_eq_false, if_false]
    apply read_loop_short alloc_ok hall data hshort
    · exact ⟨by simp [fresh_stream], by simpa using h1, h2, rfl, rfl, by simp [fresh_stream]⟩
    · simpa [fresh_stream] using hfuel
  dsimp only
  apply hcap
  · cases st_size with
    | none => simp [INPUT_BUFFER_INITIAL_SIZE]
    | some size =>
      dsimp only
      unfold INPUT_MAX_SIZE INPUT_BUFFER_INITIAL_SIZE
      split_ifs <;> omega
  · cases st_size with
    | none => simp [INPUT_BUFFER_INITIAL_SIZE, INPUT_MAX_SIZE]
    | some size =>
      dsimp only
      unfold INPUT_MAX_SIZE INPUT_BUFFER_INITIAL_SIZE
      split_ifs <;> omega

/-- C22, the code at the failing input: on an error-free stream of exactly
`INPUT_MAX_SIZE - 1` bytes, which is shorter than the ceiling and fits the largest
buffer together with its NUL, the call is still in its loop after any number of
iterations, whatever the initial capacity, every allocation succeeding; the empty
stream is returned as the empty string. -/
theorem C22_stdin_stuck_below_ceiling (st_size : Option Nat) (fuel : Nat) :
    (List.replicate (INPUT_MAX_SIZE - 1) (0 : UInt8)).length < INPUT_MAX_SIZE ∧
    app_read_input_from_stdin (fun _ => true) st_size
      (fresh_stream (List.replicate (INPUT_MAX_SIZE - 1) 0)) fuel = none ∧
    app_read_input_from_stdin (fun _ => true) st_size (fresh_stream []) (fuel + 2) =
      some (.ok []) := by
  refine ⟨by rw [List.length_replicate]; decide, ?_, ?_⟩
  · exact stdin_never_returns _ (fun _ => rfl) st_size _
      (by rw [List.length_replicate]) fuel
  · exact stdin_returns_short _ (fun _ => rfl) st_size [] (by decide) (fuel + 2)
      (by simp)

/-! ## C28: termination of the standard-input reader -/

/-- C28, the code at the failing inputs: on an error-free stream of
`INPUT_MAX_SIZE - 1 + k` bytes, for every `k`, the read loop reaches none of its three
ways out (the end-of-file `break`, the read-error return, the size-limit return): the
call is still running after any number of iterations, whatever the initial capacity,
every allocation succeeding. -/
theorem C28_stdin_loops_forever (k : Nat) (st_size : Option Nat) (fuel : Nat) :
    app_read_input_from_stdin (fun _ => true) st_size
      (fresh_stream (List.replicate (INPUT_MAX_SIZE - 1 + k) 0)) fuel = none :=
  stdin_never_returns _ (fun _ => rfl) st_size _
    (by rw [List.length_replicate]; omega) fuel

/-! ## C29: the first selection of the menu -/

/-- C29, the code at the failing input: with two items of which the first is enabled
and the second, the default, is disabled, `tui_show_menu` returns -1 before it reads
any key, although an item is enabled: the search for an enabled item starts at the
default and only goes forward. -/
theorem C29_enabled_item_before_default (keys : List Int) (fuel : Nat) :
    enabled_at menu_first_enabled 0 = true ∧
    enabled_at menu_first_enabled 1 = false ∧
    tui_show_menu menu_first_enabled 1 keys fuel = .returned (-1) ∧
    tui_show_menu menu_first_enabled 0 [] fuel = .waiting 0 := by
  refine ⟨by decide, by decide, ?_, ?_⟩
  · simp [tui_show_menu, menu_first_enabled, first_enabled_from]
  · simp [tui_show_menu, menu_first_enabled, first_enabled_from, menu_loop]

/-! ## C30: the selection invariant of the menu -/

end AppCli
